import Mathlib

/-!
Verification development for the SWAN migration / canonical-equivalence /
schema-degradation pipeline (`duckdb_pipeline.py`, `preprocess_dbs.py`).

The Python code is shallowly embedded: pure functions become Lean functions,
the stateful pieces become explicit state passing, machine floats are
modelled by exact rationals together with the distinguished IEEE specials
NaN and the signed infinities (every finite value appearing in the claims
is exactly representable, so the compared predicates agree with IEEE
behaviour), and external engines (SQLite / DuckDB execution,
`sqlglot` transpilation, the filesystem) are oracle parameters carried in
environment records, while the control flow around them is embedded
faithfully from the source.
-/

namespace SWAN

/-! ## Python value model

`PyVal` covers every runtime value that flows through the comparison oracle:
the JSON scalars (floats split into finite values and the IEEE specials
NaN / +inf / -inf, which engine `DOUBLE` columns natively produce), the
engine-native values canonicalised by `_jsonable_scalar` (Decimal, bytes,
objects with `isoformat`, arbitrary objects), Python lists and tuples, and
the two tagged-dict canonical shapes `{"__type__": "bytes", ...}` and
`{"__type__": "py_repr", ...}`. -/

inductive PyVal where
  | noneV
  | boolV (b : Bool)
  | intV (z : ℤ)
  | floatV (q : ℚ)
  | nanV
  | infV
  | ninfV
  | strV (s : String)
  | decimalV (q : ℚ)
  | bytesV (bs : List ℕ)
  | withIso (iso : String)
  | foreignObj (ty rep : String)
  | listV (xs : List PyVal)
  | tupleV (xs : List PyVal)
  | bytesTag (b64 : String)
  | pyReprV (ty rep : String)

/-! ### Character/string helpers (Python `str` methods, ASCII fragment) -/

def pyWhitespace (c : Char) : Bool :=
  c = ' ' || c = '\t' || c = '\n' || c = '\r' || c = '\x0b' || c = '\x0c'

/-- Python `str.strip()` (ASCII whitespace fragment). -/
def pyStrip (s : String) : String :=
  ⟨((s.data.dropWhile pyWhitespace).reverse.dropWhile pyWhitespace).reverse⟩

def lowerStr (s : String) : String := ⟨s.data.map Char.toLower⟩

def upperStr (s : String) : String := ⟨s.data.map Char.toUpper⟩

def isAsciiDigit (c : Char) : Bool := '0' ≤ c && c ≤ '9'

/-- Python `s.isdigit()` (ASCII fragment): nonempty and all digits. -/
def strIsDigit (cs : List Char) : Bool := !cs.isEmpty && cs.all isAsciiDigit

def digitsToNat (cs : List Char) : ℕ :=
  cs.foldl (fun acc c => acc * 10 + (c.toNat - 48)) 0

/-- Python `int(s)` on a string accepted by the digit test of `_num`
(all digits, or a leading minus followed by digits). -/
def intOfDigitStr (cs : List Char) : ℤ :=
  match cs with
  | '-' :: rest => -(digitsToNat rest : ℤ)
  | _ => (digitsToNat cs : ℤ)

def parseSign : List Char → Bool × List Char
  | '-' :: cs => (true, cs)
  | '+' :: cs => (false, cs)
  | cs => (false, cs)

/-- Python `float(s)` restricted to finite decimal literals:
`[sign] (digits [. digits] | . digits) [(e|E) [sign] digits]`.
(Digit underscores are modelled as parse failures; no claim exercises
them.  The special spellings `nan` / `inf` are handled by `pyFloatFull`.) -/
def pyFloatParse (s : String) : Option ℚ :=
  let (neg, cs) := parseSign s.data
  let ip := cs.takeWhile isAsciiDigit
  let cs1 := cs.dropWhile isAsciiDigit
  let (sawDot, fp, cs2) :=
    match cs1 with
    | '.' :: rest => (true, rest.takeWhile isAsciiDigit, rest.dropWhile isAsciiDigit)
    | _ => (false, ([] : List Char), cs1)
  if ip.isEmpty && fp.isEmpty then Option.none
  else
    let mant : ℚ := ((if neg then -(digitsToNat (ip ++ fp) : ℤ) else (digitsToNat (ip ++ fp) : ℤ)) : ℚ)
    let base : ℚ := mant / ((10 : ℚ) ^ fp.length)
    let _ := sawDot
    match cs2 with
    | [] => some base
    | e :: rest =>
      if e = 'e' || e = 'E' then
        let (eneg, rest1) := parseSign rest
        let ed := rest1.takeWhile isAsciiDigit
        let rest2 := rest1.dropWhile isAsciiDigit
        if ed.isEmpty || !rest2.isEmpty then Option.none
        else if eneg then some (base / ((10 : ℚ) ^ digitsToNat ed))
        else some (base * ((10 : ℚ) ^ digitsToNat ed))
      else Option.none

/-! ### `_num`: numeric coercion used by `scalar_equal` -/

/-- A Python `float` as `_num` and `math.isclose` see it: a finite value
(the exact rational), NaN, or a signed infinity. -/
inductive PyNum where
  | fin (q : ℚ)
  | nan
  | inf
  | ninf
deriving DecidableEq

/-- Python `float(s)` in full: the case-insensitive special spellings
`nan`, `inf` and `infinity` (with optional sign; the sign of a NaN is
irrelevant to every comparison the pipeline performs) parse to the IEEE
specials, everything else goes through the finite-literal parser. -/
def pyFloatFull (s : String) : Option PyNum :=
  let (neg, cs) := parseSign s.data
  let low := cs.map Char.toLower
  if low = "nan".data then some .nan
  else if low = "inf".data || low = "infinity".data then
    some (if neg then .ninf else .inf)
  else (pyFloatParse s).map .fin

/-- Embedding of `duckdb_pipeline._num`. Booleans are excluded; ints,
floats (the IEEE specials included) and Decimals coerce; strings are
stripped, digit-only strings (with an optional leading minus) go through
the exact integer parse, all other strings through the float parse (which
also accepts the `nan` / `inf` spellings). Everything else yields no
number. -/
def _num : PyVal → Option PyNum
  | .boolV _ => Option.none
  | .intV z => some (.fin (z : ℚ))
  | .floatV q => some (.fin q)
  | .nanV => some .nan
  | .infV => some .inf
  | .ninfV => some .ninf
  | .decimalV q => some (.fin q)
  | .strV x =>
    let s := (pyStrip x).data
    if s.isEmpty then Option.none
    else if strIsDigit s || (s.head? = some '-' && strIsDigit s.tail) then
      some (.fin ((intOfDigitStr s : ℤ) : ℚ))
    else pyFloatFull ⟨s⟩
  | _ => Option.none

/-- Embedding of `math.isclose(a, b, rel_tol=1e-9, abs_tol=1e-9)` on finite
floats: `|a-b| <= max(rel_tol * max(|a|, |b|), abs_tol)`. -/
def relTol : ℚ := 1 / 1000000000

def isclose (a b : ℚ) : Bool := decide (|a - b| ≤ max (relTol * max |a| |b|) relTol)

/-- `math.isclose` on full floats: the `a == b` short-circuit makes each
infinity close to itself; any NaN operand — NaN against NaN included — and
an infinity against anything else yield `False`; finite pairs go through
the combined-tolerance formula. -/
def iscloseN : PyNum → PyNum → Bool
  | .fin a, .fin b => isclose a b
  | .inf, .inf => true
  | .ninf, .ninf => true
  | _, _ => false

/-! ### Python `==` on the embedded values

Python compares `bool`/`int`/`float`/`Decimal` numerically (`True == 1`,
`1 == 1.0`, and NaN unequal to everything, itself included), strings as
strings, lists/tuples elementwise (a list never equals a tuple), dicts by
key/value (the two tagged-dict shapes), and falls back to identity for
foreign objects — which after canonicalisation are only ever compared
against themselves, so structural equality of their fields is faithful on
every comparison the pipeline performs. -/

def pyNumVal : PyVal → Option PyNum
  | .boolV b => some (.fin (if b then 1 else 0))
  | .intV z => some (.fin (z : ℚ))
  | .floatV q => some (.fin q)
  | .nanV => some .nan
  | .infV => some .inf
  | .ninfV => some .ninf
  | .decimalV q => some (.fin q)
  | _ => Option.none

/-- Python `==` on two numbers: exact equality, except that NaN compares
unequal to everything, itself included. -/
def pyNumEq : PyNum → PyNum → Bool
  | .fin x, .fin y => decide (x = y)
  | .inf, .inf => true
  | .ninf, .ninf => true
  | _, _ => false

mutual
def pyEq (a b : PyVal) : Bool :=
  match a, b with
  | .noneV, .noneV => true
  | .strV s, .strV t => s = t
  | .bytesV x, .bytesV y => x = y
  | .withIso x, .withIso y => x = y
  | .foreignObj t r, .foreignObj t' r' => t = t' && r = r'
  | .bytesTag x, .bytesTag y => x = y
  | .pyReprV t r, .pyReprV t' r' => t = t' && r = r'
  | .listV xs, .listV ys => pyEqList xs ys
  | .tupleV xs, .tupleV ys => pyEqList xs ys
  | a, b =>
    match pyNumVal a, pyNumVal b with
    | some x, some y => pyNumEq x y
    | _, _ => false
def pyEqList (xs ys : List PyVal) : Bool :=
  match xs, ys with
  | [], [] => true
  | x :: xs, y :: ys => pyEq x y && pyEqList xs ys
  | _, _ => false
end

/-! ### `scalar_equal` -/

/-- The `{"__type__": "bytes", ...}` → `("bytes", base64)` conversion at the
top of `scalar_equal`; all other values pass through. -/
def bytesDictToTuple : PyVal → PyVal
  | .bytesTag b => .tupleV [.strV "bytes", .strV b]
  | v => v

def isTupleV : PyVal → Bool
  | .tupleV _ => true
  | _ => false

def isNoneV : PyVal → Bool
  | .noneV => true
  | _ => false

/-- Embedding of `duckdb_pipeline.scalar_equal`: `a is None and b is None`
first, then the bytes-dict-to-tuple conversion, tuple structural equality,
the numeric-tolerance path when both sides coerce, and the Python `==`
fallback. -/
def scalar_equal (a b : PyVal) : Bool :=
  if isNoneV a && isNoneV b then true
  else
    let a := bytesDictToTuple a
    let b := bytesDictToTuple b
    if isTupleV a || isTupleV b then pyEq a b
    else
      match _num a, _num b with
      | some na, some nb => iscloseN na nb
      | _, _ => pyEq a b

/-! ### Canonicalizer `_jsonable_scalar` -/

/-- Decimal digit characters for the embedded decimal renderings. -/
def digitChar (d : ℕ) : Char := Char.ofNat (48 + d)

def charDigit (c : Char) : ℕ := c.toNat - 48

/-- Base-10 digits, least significant first (an executable version of
`Nat.digits 10`, see `natDigits10_eq_digits`). -/
def natDigitsAux : ℕ → ℕ → List ℕ
  | 0, _ => []
  | _ + 1, 0 => []
  | fuel + 1, n => n % 10 :: natDigitsAux fuel (n / 10)

def natDigits10 (n : ℕ) : List ℕ := natDigitsAux n n

def natDecimalChars (n : ℕ) : List Char :=
  if n = 0 then ['0'] else ((natDigits10 n).map digitChar).reverse

def natDecimalStr (n : ℕ) : String := ⟨natDecimalChars n⟩

def intDecimalChars (z : ℤ) : List Char :=
  if z < 0 then '-' :: natDecimalChars z.natAbs else natDecimalChars z.natAbs

def intDecimalStr (z : ℤ) : String := ⟨intDecimalChars z⟩

/-- Rendering of the rational float stand-in (used only inside serialized
keys and debug strings; Python's shortest-roundtrip float `repr` is not
reproduced, and no claim depends on the textual form). -/
def ratRepr (q : ℚ) : String :=
  if q.den = 1 then intDecimalStr q.num ++ ".0"
  else intDecimalStr q.num ++ "/" ++ natDecimalStr q.den

def b64Alphabet : List Char :=
  "ABCDEFGHIJKLMNOPQRSTUVWXYZabcdefghijklmnopqrstuvwxyz0123456789+/".data

def b64Char (n : ℕ) : Char := b64Alphabet.getD n 'A'

/-- Standard base64 of a byte list (`base64.b64encode`). -/
def b64encode : List ℕ → String
  | [] => ""
  | [a] =>
    let a := a % 256
    ⟨[b64Char (a / 4), b64Char (a % 4 * 16), '=', '=']⟩
  | [a, b] =>
    let a := a % 256
    let b := b % 256
    ⟨[b64Char (a / 4), b64Char (a % 4 * 16 + b / 16), b64Char (b % 16 * 4), '=']⟩
  | a :: b :: c :: rest =>
    let a := a % 256
    let b := b % 256
    let c := c % 256
    (⟨[b64Char (a / 4), b64Char (a % 4 * 16 + b / 16),
       b64Char (b % 16 * 4 + c / 64), b64Char (c % 64)]⟩ : String) ++ b64encode rest

-- Python `repr` stand-in for the canonicalizer's debug fallback (exact
-- text is irrelevant to every claim; only the branch structure matters).
mutual
def reprPy : PyVal → String
  | .noneV => "None"
  | .boolV b => cond b "True" "False"
  | .intV z => intDecimalStr z
  | .floatV q => ratRepr q
  | .nanV => "nan"
  | .infV => "inf"
  | .ninfV => "-inf"
  | .strV s => "'" ++ s ++ "'"
  | .decimalV q => "Decimal(" ++ ratRepr q ++ ")"
  | .bytesV bs => "b64:" ++ b64encode bs
  | .withIso iso => "iso:" ++ iso
  | .foreignObj t r => t ++ ":" ++ r
  | .listV xs => "[" ++ reprPyList xs ++ "]"
  | .tupleV xs => "(" ++ reprPyList xs ++ ")"
  | .bytesTag b => "dict-bytes:" ++ b
  | .pyReprV t r => "dict-py-repr:" ++ t ++ ":" ++ r
def reprPyList : List PyVal → String
  | [] => ""
  | [x] => reprPy x
  | x :: xs => reprPy x ++ ", " ++ reprPyList xs
end

def pyTypeName : PyVal → String
  | .listV _ => "list"
  | .tupleV _ => "tuple"
  | .bytesTag _ => "dict"
  | .pyReprV _ _ => "dict"
  | .foreignObj t _ => t
  | _ => "object"

/-- Embedding of `_jsonable_scalar` (the Value Canonicalizer): None and the
four JSON scalar types pass through (floats including NaN and the
infinities — `isinstance(x, float)` holds for them, so they are returned
unchanged), Decimal degrades to the float stand-in,
byte payloads become the tagged base64 dict, anything exposing `isoformat`
becomes its ISO text, and everything else becomes the tagged
type-name/debug-string fallback dict. -/
def _jsonable_scalar : PyVal → PyVal
  | .noneV => .noneV
  | .boolV b => .boolV b
  | .intV z => .intV z
  | .floatV q => .floatV q
  | .nanV => .nanV
  | .infV => .infV
  | .ninfV => .ninfV
  | .strV s => .strV s
  | .decimalV q => .floatV q
  | .bytesV bs => .bytesTag (b64encode bs)
  | .withIso iso => .strV iso
  | x => .pyReprV (pyTypeName x) (reprPy x)

/-! ### `_stable_key` and the row multiset -/

def hexDigit (n : ℕ) : Char := if n < 10 then digitChar n else Char.ofNat (87 + n)

/-- JSON string escaping as `json.dumps` performs it for the characters that
require escaping (`ensure_ascii=False` leaves other characters alone). -/
def jsonEscapeChar (c : Char) : String :=
  if c = '"' then "\\\""
  else if c = '\\' then "\\\\"
  else if c = '\n' then "\\n"
  else if c = '\t' then "\\t"
  else if c = '\r' then "\\r"
  else if c.toNat < 32 then "\\u00" ++ ⟨[hexDigit (c.toNat / 16), hexDigit (c.toNat % 16)]⟩
  else ⟨[c]⟩

def quoteJson (s : String) : String :=
  "\"" ++ ⟨(s.data.map (fun c => (jsonEscapeChar c).data)).flatten⟩ ++ "\""

def lbrace : String := "\x7b"
def rbrace : String := "\x7d"

-- `json.dumps(x, sort_keys=True, ensure_ascii=False, separators=(",", ":"))`
-- on canonical (post-`_jsonable_scalar`) values.  Dict keys appear in sorted
-- order ("__type__" sorts before "base64", "py_type", "repr").  The
-- pre-canonical constructors cannot reach this function in the pipeline
-- (`_stable_key` is only applied to `_jsonable_scalar` images); they are
-- given a harmless total fallback.
mutual
def jsonDumps : PyVal → String
  | .noneV => "null"
  | .boolV b => cond b "true" "false"
  | .intV z => intDecimalStr z
  | .floatV q => ratRepr q
  | .nanV => "NaN"
  | .infV => "Infinity"
  | .ninfV => "-Infinity"
  | .strV s => quoteJson s
  | .listV xs => "[" ++ jsonDumpsSep xs ++ "]"
  | .tupleV xs => "[" ++ jsonDumpsSep xs ++ "]"
  | .bytesTag b =>
    lbrace ++ "\"__type__\":\"bytes\",\"base64\":" ++ quoteJson b ++ rbrace
  | .pyReprV t r =>
    lbrace ++ "\"__type__\":\"py_repr\",\"py_type\":" ++ quoteJson t ++ ",\"repr\":" ++ quoteJson r ++ rbrace
  | x => quoteJson (reprPy x)
def jsonDumpsSep : List PyVal → String
  | [] => ""
  | [x] => jsonDumps x
  | x :: xs => jsonDumps x ++ "," ++ jsonDumpsSep xs
end

/-- Embedding of `_stable_key`. -/
def _stable_key (x : PyVal) : String := jsonDumps x

/-- Embedding of `_rows_as_counter`: the multiset of stable per-row keys
(`collections.Counter` compares equal exactly when the key multisets are
equal, so the counter is modelled as the multiset itself). -/
def _rows_as_counter (rows : List (List PyVal)) : Multiset String :=
  ((rows.map (fun row => _stable_key (.listV (row.map _jsonable_scalar)))) : List String)

/-! ### Row comparisons -/

def rowCellsEqual : List PyVal → List PyVal → Bool
  | [], [] => true
  | a :: as, b :: bs => scalar_equal a b && rowCellsEqual as bs
  | _, _ => false

def rowsEqualGo : List PyVal → List (List PyVal) → Bool
  | [], [] => true
  | .listV er :: es, gr :: gs => rowCellsEqual er gr && rowsEqualGo es gs
  | _ :: _, _ :: _ => false
  | _, _ => false

/-- Embedding of `rows_equal` (ordered comparison): the expected value must
be a list of lists of matching shape with every cell pair `scalar_equal`. -/
def rows_equal (expected : PyVal) (got : List (List PyVal)) : Bool :=
  match expected with
  | .listV es => rowsEqualGo es got
  | _ => false

/-- Python `isinstance(r, list)` plus extraction of the row's cells. -/
def asListRow : PyVal → Option (List PyVal)
  | .listV r => some r
  | _ => Option.none

/-- The row-collection loop of `rows_equal_unordered`: every expected row
must be a list; a non-list row aborts with `none` (the source returns
`False`). -/
def collectListRows : List PyVal → Option (List (List PyVal))
  | [] => some []
  | x :: rest =>
    match asListRow x with
    | some r => (collectListRows rest).map (fun t => r :: t)
    | Option.none => Option.none

/-- Embedding of `rows_equal_unordered`: multiset comparison of stable row
keys. -/
def rows_equal_unordered (expected : PyVal) (got : List (List PyVal)) : Bool :=
  match expected with
  | .listV es =>
    match collectListRows es with
    | some exp_rows => decide (_rows_as_counter exp_rows = _rows_as_counter got)
    | Option.none => false
  | _ => false

def pairwiseRowsEqual : List (List PyVal) → List (List PyVal) → Bool
  | [], [] => true
  | sr :: ss, dr :: ds => rowCellsEqual sr dr && pairwiseRowsEqual ss ds
  | _, _ => false

/-- Embedding of `rows_equal_sqlite_duckdb`. -/
def rows_equal_sqlite_duckdb (sqlite_rows duck_rows : List (List PyVal))
    (unordered : Bool) : Bool :=
  if !unordered then pairwiseRowsEqual sqlite_rows duck_rows
  else decide (_rows_as_counter sqlite_rows = _rows_as_counter duck_rows)

/-! ## Rewrite Rule Table (`rewrite_for_duckdb`)

The four regular-expression substitutions are embedded as bespoke matchers.
Each of the patterns is backtracking-free in the relevant positions (every
greedy subpattern is followed by a character its class excludes, so maximal
munch is exact; the one lazy group is implemented shortest-first, exactly as
the engine evaluates it), so the matchers below reproduce `re.sub`'s
semantics on these patterns.  Crucially, the replacement templates are
embedded with Python's escape processing applied: in the source the
birthday and ANY_VALUE replacement templates are raw strings containing
`\\1` / `\\2` — an escaped backslash followed by a literal digit, NOT a
group reference — so those substitutions emit the literal two-character
sequences `\1` / `\2`. -/

def isSpaceCh (c : Char) : Bool :=
  c = ' ' || c = '\t' || c = '\n' || c = '\r' || c = '\x0b' || c = '\x0c'

/-- Regex word character `[A-Za-z0-9_]` (ASCII fragment). -/
def isWordChar (c : Char) : Bool := c.isAlpha || isAsciiDigit c || c = '_'

/-- Consume a case-sensitive literal, returning the rest. -/
def eatLit? : List Char → List Char → Option (List Char)
  | [], s => some s
  | p :: ps, c :: cs => if c = p then eatLit? ps cs else Option.none
  | _ :: _, [] => Option.none

/-- Consume a case-insensitive literal (`re.IGNORECASE`), returning the rest. -/
def eatLitCI? : List Char → List Char → Option (List Char)
  | [], s => some s
  | p :: ps, c :: cs => if c.toLower = p.toLower then eatLitCI? ps cs else Option.none
  | _ :: _, [] => Option.none

/-- Python `str.replace` (left-to-right, non-overlapping). -/
def replaceAll (pat rep : List Char) : ℕ → List Char → List Char
  | 0, _ => []
  | _ + 1, [] => []
  | fuel + 1, c :: cs =>
    match eatLit? pat (c :: cs) with
    | some rest => rep ++ replaceAll pat rep fuel rest
    | Option.none => c :: replaceAll pat rep fuel cs

/-- Python `in` on strings (substring test). -/
def strContainsAux (pat : List Char) : ℕ → List Char → Bool
  | 0, _ => false
  | _ + 1, [] => (eatLit? pat []).isSome
  | fuel + 1, c :: cs => (eatLit? pat (c :: cs)).isSome || strContainsAux pat fuel cs

def strContains (s pat : String) : Bool := strContainsAux pat.data (s.data.length + 1) s.data

/-- The `re.sub` driver: scan left to right; at each position try the matcher
(which receives the previous original character for `\b` look-behind and
the remaining text); on a match emit the replacement and resume after the
consumed span, otherwise copy one character. -/
def subAllP (m : Option Char → List Char → Option (String × List Char)) :
    ℕ → Option Char → List Char → String
  | 0, _, _ => ""
  | _ + 1, _, [] => ""
  | fuel + 1, prev, c :: cs =>
    match m prev (c :: cs) with
    | some (rep, rest) =>
      let consumed := (c :: cs).length - rest.length
      if consumed = 0 then (⟨[c]⟩ : String) ++ subAllP m fuel (some c) cs
      else rep ++ subAllP m fuel (((c :: cs).take consumed).getLast?) rest
    | Option.none => (⟨[c]⟩ : String) ++ subAllP m fuel (some c) cs

def applySub (m : Option Char → List Char → Option (String × List Char)) (s : String) : String :=
  subAllP m (s.data.length + 1) Option.none s.data

/-- Lazy group `([^)]*?)` of `_RE_STRFTIME_YEAR` followed by `,\s*'%Y')`:
shortest-first — try to match the tail here, otherwise consume one
non-`)` character into the group and retry. -/
def strffGroup : ℕ → List Char → List Char → Option (List Char × List Char)
  | 0, _, _ => Option.none
  | fuel + 1, acc, s =>
    let tail? : Option (List Char) :=
      match s with
      | ',' :: r1 => eatLit? "'%Y')".data (r1.dropWhile isSpaceCh)
      | _ => Option.none
    match tail? with
    | some rest => some (acc.reverse, rest)
    | Option.none =>
      match s with
      | c :: cs => if c = ')' then Option.none else strffGroup fuel (c :: acc) cs
      | [] => Option.none

/-- Matcher for `_RE_STRFTIME_YEAR` = `STRFTIME\(([^)]*?),\s*'%Y'\)`
(case-sensitive), with the working replacement template
`CAST(STRFTIME(\1, '%Y') AS INTEGER)` (this template's backreference is a
real one in the source). -/
def strftimeMatcher (s : List Char) : Option (String × List Char) :=
  match eatLit? "STRFTIME(".data s with
  | Option.none => Option.none
  | some r1 =>
    match strffGroup (r1.length + 1) [] r1 with
    | some (grp, rest) =>
      some ("CAST(STRFTIME(" ++ (⟨grp⟩ : String) ++ ", '%Y') AS INTEGER)", rest)
    | Option.none => Option.none

/-- The `birthday\b` tail: the literal (case-insensitively) followed by a word
boundary. -/
def birthdayTail? (t : List Char) : Option (List Char) :=
  match eatLitCI? "birthday".data t with
  | some rest => if (rest.head?.map isWordChar).getD false then Option.none else some rest
  | Option.none => Option.none

/-- Matcher for
`(CURRENT_TIMESTAMP)\s*-\s*([A-Za-z_][A-Za-z0-9_]*\.)?birthday\b`
(IGNORECASE).  The optional qualifier group is tried first (greedy `?`),
falling back to the bare `birthday`.  The replacement template in the
source is the raw string `\\1 - CAST(\\2birthday AS TIMESTAMP)`, whose
`\\` escapes are literal backslashes — the output below is the literal
text, with no group substitution. -/
def birthdayMatcher (s : List Char) : Option (String × List Char) :=
  match eatLitCI? "CURRENT_TIMESTAMP".data s with
  | Option.none => Option.none
  | some r1 =>
    match r1.dropWhile isSpaceCh with
    | '-' :: r3 =>
      let r4 := r3.dropWhile isSpaceCh
      let qualified : Option (List Char) :=
        match r4 with
        | c :: _ =>
          if c.isAlpha || c = '_' then
            let idn := r4.takeWhile isWordChar
            match r4.dropWhile isWordChar with
            | '.' :: r5 => if idn.isEmpty then Option.none else birthdayTail? r5
            | _ => Option.none
          else Option.none
        | [] => Option.none
      match qualified with
      | some rest => some ("\\1 - CAST(\\2birthday AS TIMESTAMP)", rest)
      | Option.none =>
        match birthdayTail? r4 with
        | some rest => some ("\\1 - CAST(\\2birthday AS TIMESTAMP)", rest)
        | Option.none => Option.none
    | _ => Option.none

/-- Matcher for `\bSELECT\s+(<qual>)<col>\b` (IGNORECASE) with a literal
(escape-processed, non-substituting) replacement, shared by the two
ANY_VALUE rewrites. -/
def selectAnyValueMatcher (qual col : String) (rep : String)
    (prev : Option Char) (s : List Char) : Option (String × List Char) :=
  if (prev.map isWordChar).getD false then Option.none
  else
    match eatLitCI? "SELECT".data s with
    | Option.none => Option.none
    | some r1 =>
      match r1 with
      | c :: _ =>
        if isSpaceCh c then
          let r2 := r1.dropWhile isSpaceCh
          match eatLitCI? (qual ++ col).data r2 with
          | some rest =>
            if (rest.head?.map isWordChar).getD false then Option.none
            else some (rep, rest)
          | Option.none => Option.none
        else Option.none
      | [] => Option.none

/-- Embedding of `rewrite_for_duckdb`: the `DATETIME()` text replacement,
the (guarded) STRFTIME year-cast substitution, the birthday timestamp-cast
substitution, and the two ANY_VALUE substitutions, in source order.  The
replacement text of the last three substitutions is embedded exactly as
`re.sub` emits it. -/
def rewrite_for_duckdb (sql : String) : String :=
  let sql : String :=
    ⟨replaceAll "DATETIME()".data "CURRENT_TIMESTAMP".data (sql.data.length + 1) sql.data⟩
  let sql :=
    if strContains sql "STRFTIME" && strContains sql "%Y" && strContains sql "-" then
      applySub (fun _ s => strftimeMatcher s) sql
    else sql
  let sql := applySub (fun _ s => birthdayMatcher s) sql
  let sql := applySub
    (selectAnyValueMatcher "t1." "player_name" "SELECT ANY_VALUE(\\1player_name) AS player_name") sql
  let sql := applySub
    (selectAnyValueMatcher "teamInfo." "team_long_name"
      "SELECT ANY_VALUE(\\1team_long_name) AS team_long_name") sql
  sql

/-! ## Column Nullification Mutator

The mutated database is modelled one column slice at a time: a column's
rows carry their SQLite `rowid` and current value.  An `UPDATE t SET c = v`
is modelled as mapping the value function over the rows and checking the
column's constraints (NOT NULL; uniqueness over non-NULL values, as SQLite
and DuckDB enforce it — multiple NULLs never conflict).  A constraint
violation is the modelled "exception": the update function returns `none`
and the callers' `try/except` structure is embedded as matching on it.
CHECK constraints are not modelled; no claim depends on them. -/

structure ColInfo where
  name : String
  decl_type : String
  notnull : Bool
  pk : Bool

inductive SVal where
  | null
  | int (z : ℤ)
  | real (q : ℚ)
  | text (s : String)
deriving DecidableEq

structure SRow where
  rowid : ℤ
  val : SVal
deriving DecidableEq

/-- One column slice of a table: its rows plus whether `SELECT rowid` works
(`_can_use_rowid`; it fails for WITHOUT ROWID tables). -/
structure STable where
  rows : List SRow
  rowidOk : Bool

/-- Two equal non-NULL values somewhere in the column (what a UNIQUE
constraint rejects). -/
def dupNonNull : List SVal → Bool
  | [] => false
  | v :: rest => (v ≠ SVal.null && rest.contains v) || dupNonNull rest

/-- Does a column consisting of `vals` violate the column's constraints? -/
def violatesCol (ci : ColInfo) (isUnique : Bool) (vals : List SVal) : Bool :=
  (ci.notnull && vals.contains SVal.null) || (isUnique && dupNonNull vals)

/-- An `UPDATE table SET col = f(rowid)` over every row: `none` models the
engine raising a constraint violation, `some` gives the updated rows. -/
def updateCol (ci : ColInfo) (isUnique : Bool) (rows : List SRow) (f : ℤ → SVal) :
    Option (List SRow) :=
  let newRows := rows.map (fun r => { r with val := f r.rowid })
  if violatesCol ci isUnique (newRows.map (·.val)) then Option.none else some newRows

/-- The numeric-affinity test shared by `_empty_value` and
`_apply_unique_dummy` (`any(x in t for x in ("INT","REAL",...))`). -/
def numericLikeType (decl_type : String) : Bool :=
  ["INT", "REAL", "FLOA", "DOUB", "NUM", "DEC", "BOOL"].any
    (fun x => strContains (upperStr decl_type) x)

/-- Embedding of `preprocess_dbs._empty_value`. -/
def _empty_value (ci : ColInfo) : SVal :=
  if numericLikeType ci.decl_type then .int 0 else .text ""

/-- The per-row dummy value of `_apply_unique_dummy`: `-rowid` for integer
primary keys, `rowid` for other numeric-like columns, and the SQLite
`printf('__DROPPED__%d', rowid)` placeholder otherwise. -/
def uniqueDummyVal (ci : ColInfo) (rowid : ℤ) : SVal :=
  if numericLikeType ci.decl_type then
    if ci.pk && strContains (upperStr ci.decl_type) "INT" then .int (-rowid) else .int rowid
  else .text ("__DROPPED__" ++ intDecimalStr rowid)

/-- Embedding of `preprocess_dbs._apply_unique_dummy`: requires a usable
rowid, then updates every row to its per-row dummy value; any engine
rejection is caught and returned as an error string (never an escaping
exception). -/
def _apply_unique_dummy (ci : ColInfo) (isUnique : Bool) (tbl : STable) :
    Option String × List SRow :=
  if !tbl.rowidOk then (some "no rowid available for per-row dummy update", tbl.rows)
  else
    match updateCol ci isUnique tbl.rows (uniqueDummyVal ci) with
    | some newRows => (Option.none, newRows)
    | Option.none => (some "constraint violation", tbl.rows)

/-- Embedding of `preprocess_dbs._apply_nullify`: try `SET col = NULL`; on
rejection, NOT NULL + (primary key or UNIQUE-index member) columns get the
per-row dummy treatment, other columns a single type-appropriate empty
value; if that also fails the error string is returned.  `uniqueCols` is
the lowercased result of `_unique_cols`; the engine enforces uniqueness
for exactly the primary-key or UNIQUE-indexed columns. -/
def _apply_nullify (ci : ColInfo) (uniqueCols : List String) (tbl : STable) :
    Option String × List SRow :=
  let isUnique := ci.pk || uniqueCols.contains (lowerStr ci.name)
  match updateCol ci isUnique tbl.rows (fun _ => SVal.null) with
  | some newRows => (Option.none, newRows)
  | Option.none =>
    if ci.notnull && (ci.pk || uniqueCols.contains (lowerStr ci.name)) then
      _apply_unique_dummy ci isUnique tbl
    else
      match updateCol ci isUnique tbl.rows (fun _ => _empty_value ci) with
      | some newRows => (Option.none, newRows)
      | Option.none => (some "constraint violation on empty value", tbl.rows)

/-- Embedding of `duckdb_pipeline._duck_empty_value`. -/
def _duck_empty_value (type_s : String) : SVal :=
  let t := upperStr type_s
  if ["INT", "REAL", "FLOA", "DOUB", "NUM", "DEC", "BOOL", "HUGEINT"].any
      (fun x => strContains t x) then .int 0
  else if strContains t "DATE" then .text "1970-01-01"
  else if strContains t "TIME" then .text "1970-01-01 00:00:00"
  else .text ""

/-- The per-column body of `duckdb_pipeline.nullify_columns_in_duckdb`:
try `SET col = NULL`; on rejection retry once with the single shared
`_duck_empty_value`; if that also fails the column is counted as failed.
There is no per-row fallback in this mutator. -/
def duckNullifyColumn (ci : ColInfo) (isUnique : Bool) (tbl : STable) :
    Option String × List SRow :=
  match updateCol ci isUnique tbl.rows (fun _ => SVal.null) with
  | some newRows => (Option.none, newRows)
  | Option.none =>
    match updateCol ci isUnique tbl.rows (fun _ => _duck_empty_value ci.decl_type) with
    | some newRows => (Option.none, newRows)
    | Option.none => (some "constraint violation", tbl.rows)

/-! ### `_iter_pairs`: the PAIR_RE scanner over free-form column references

`PAIR_RE` is a dotted table/column pair whose column may be wrapped in
backtick quotes, or a plain dotted pair, with
`[A-Za-z0-9_]+` identifier runs.  Both greedy runs are followed by a
character their class excludes, so maximal munch is exact, and the
alternation prefers the backticked form, exactly as the engine does. -/

def btick : Char := Char.ofNat 96

def stripCharEnds (t : Char) (s : String) : String :=
  ⟨((s.data.dropWhile (· = t)).reverse.dropWhile (· = t)).reverse⟩

/-- One `PAIR_RE` match attempt anchored at the current position: returns
the raw (table, column) group texts and the rest after the match. -/
def pairAtPos (s : List Char) : Option ((String × String) × List Char) :=
  let tbl := s.takeWhile isWordChar
  if tbl.isEmpty then Option.none
  else
    match s.dropWhile isWordChar with
    | '.' :: r1 =>
      match r1 with
      | c :: cs =>
        if c = btick then
          -- alternative 1: tbl.`col`
          let col := cs.takeWhile (· ≠ btick)
          match cs.dropWhile (· ≠ btick) with
          | _ :: rest2 =>
            if col.isEmpty then Option.none else some ((⟨tbl⟩, ⟨col⟩), rest2)
          | [] => Option.none
        else
          -- alternative 2: tbl.col
          let col := r1.takeWhile isWordChar
          if col.isEmpty then Option.none
          else some ((⟨tbl⟩, ⟨col⟩), r1.dropWhile isWordChar)
      | [] => Option.none
    | _ => Option.none

/-- Like `finditer`: leftmost matches, resuming after each match's end. -/
def findPairs : ℕ → List Char → List (String × String)
  | 0, _ => []
  | _ + 1, [] => []
  | fuel + 1, c :: cs =>
    match pairAtPos (c :: cs) with
    | some (pr, rest) => pr :: findPairs fuel rest
    | Option.none => findPairs fuel cs

/-- Embedding of `_iter_pairs` (shared by `preprocess_dbs` and
`duckdb_pipeline`): all recognizable pairs, stripped, dropping pairs whose
stripped table or column is empty; when the pattern matches nowhere, a
single fallback `split(".", 1)` pair is produced for dotted input. -/
def _iter_pairs (expr : String) : List (String × String) :=
  let ms := findPairs (expr.data.length + 1) expr.data
  if ms.isEmpty then
    if strContains expr "." then
      let tbl : String := ⟨expr.data.takeWhile (· ≠ '.')⟩
      let col : String := ⟨(expr.data.dropWhile (· ≠ '.')).tail⟩
      [(pyStrip tbl, stripCharEnds btick (pyStrip col))]
    else []
  else
    ms.filterMap (fun pr =>
      let t := pyStrip pr.1
      let c := pyStrip pr.2
      if t.isEmpty || c.isEmpty then Option.none else some (t, c))

/-! ### `process_db` (the per-database mutator run) -/

/-- The `{n.lower(): n for n in names}` dict: on lower-case collisions the
later name wins. -/
def tableMapLookup (names : List String) (key : String) : Option String :=
  names.reverse.find? (fun n => lowerStr n = key)

/-- The observed-typo alias table `{"fprm": "frpm"}` applied to a lowered
table name. -/
def tableAliases (t : String) : String := if t = "fprm" then "frpm" else t

/-- Embedding of `_resolve_table_name`. -/
def _resolve_table_name (table_raw : String) (names : List String) : Option String :=
  let t := stripCharEnds btick (stripCharEnds '"' (pyStrip table_raw))
  tableMapLookup names (tableAliases (lowerStr t))

/-- The `_table_info` dict lookup (lower-cased keys, later columns win). -/
def colMapLookup (cols : List ColInfo) (key : String) : Option ColInfo :=
  cols.reverse.find? (fun ci => lowerStr ci.name = key)

/-- The static schema and initial contents of one SQLite database, as seen
through the introspection PRAGMAs. -/
structure PreDb where
  tableNames : List String
  tableCols : String → List ColInfo
  uniqueColsOf : String → List String
  slice : String → String → STable

structure PreCounts where
  applied : ℕ := 0
  missing : ℕ := 0
  failed : ℕ := 0

structure PreState where
  slice : String → String → STable
  counts : PreCounts

/-- One (table, column) pair of the `process_db` loop: resolve the table
and the column (case-insensitively, alias-corrected) — counting a failure
to resolve as `missing` — and otherwise run `_apply_nullify` on the
column's slice, counting `applied` or `failed` by its outcome. -/
def processPair (db : PreDb) (st : PreState) (pr : String × String) : PreState :=
  match _resolve_table_name pr.1 db.tableNames with
  | Option.none => { st with counts.missing := st.counts.missing + 1 }
  | some table =>
    match colMapLookup (db.tableCols table) (lowerStr pr.2) with
    | Option.none => { st with counts.missing := st.counts.missing + 1 }
    | some ci =>
      let uniq := db.uniqueColsOf table
      let res := _apply_nullify ci uniq (st.slice table ci.name)
      let st' : PreState :=
        { st with
          slice := fun t c =>
            if t = table && c = ci.name then
              { rows := res.2, rowidOk := (st.slice table ci.name).rowidOk }
            else st.slice t c }
      match res.1 with
      | Option.none => { st' with counts.applied := st'.counts.applied + 1 }
      | some _ => { st' with counts.failed := st'.counts.failed + 1 }

/-- Embedding of `preprocess_dbs.process_db`: iterate every recognizable
pair of every reference, then return exit code 0 exactly if the `failed`
counter stayed zero (2 otherwise), together with the final state. -/
def process_db (db : PreDb) (columns : List String) : ℕ × PreState :=
  let pairs := (columns.map _iter_pairs).flatten
  let fin := pairs.foldl (processPair db) ⟨db.slice, {}⟩
  (if fin.counts.failed = 0 then 0 else 2, fin)

/-! ### `preprocess_dbs.main`: per-database codes and the max fold -/

/-- One database considered by `main`: whether its source file exists,
whether its pickle entry is a list, and its schema/contents. -/
structure MainDbEntry where
  db_id : String
  srcExists : Bool
  colsWellTyped : Bool
  db : PreDb
  columns : List String

/-- The exit code `main` observes for one database: 2 for a missing source
file or a malformed pickle entry, otherwise the `process_db` return code. -/
def perDbExitCode (e : MainDbEntry) : ℕ :=
  if !e.srcExists then 2
  else if !e.colsWellTyped then 2
  else (process_db e.db e.columns).1

/-- The fold `exit_code = max(exit_code, rc)` over all processed databases,
starting from 0. -/
def preprocessMainExit (entries : List MainDbEntry) : ℕ :=
  entries.foldl (fun acc e => max acc (perDbExitCode e)) 0

/-! ## Migration Engine (`convert_sqlite_to_duckdb`)

The filesystem state of the target file is modelled as presence plus table
set; the two conversion strategies (the `sqlite2duckdb` subprocess and the
all-varchar fallback) are external engines whose outcomes are oracle
fields.  The control flow — the early return when the target exists and
overwrite is not forced, the forced-skip of the known-bad database, the
zero-tables check, and the unlink-then-fallback chain — is embedded from
the source. -/

structure DuckFS where
  present : Bool
  tables : List String
deriving DecidableEq

structure ConvEnv where
  /-- Tables present in the target after the `sqlite2duckdb` subprocess,
  `none` if the subprocess raised. -/
  primary : Option (List String)
  /-- Tables the all-varchar fallback conversion produces. -/
  fallbackTables : List String
  /-- The source file's stem (`european_football_2` skips the primary). -/
  stem : String

/-- Embedding of `convert_sqlite_to_duckdb`: no-op when the target exists
and `force` is not set; otherwise unlink and convert — primary strategy
first (unless the stem is known bad), falling back (after deleting partial
output) when it raises or yields zero tables. -/
def convert_sqlite_to_duckdb (env : ConvEnv) (force : Bool) (st : DuckFS) : DuckFS :=
  if st.present && !force then st
  else
    let primaryResult : Option (List String) :=
      if env.stem = "european_football_2" then Option.none
      else
        match env.primary with
        | some ts => if ts.length = 0 then Option.none else some ts
        | Option.none => Option.none
    match primaryResult with
    | some ts => { present := true, tables := ts }
    | Option.none => { present := true, tables := env.fallbackTables }

/-! ## Evaluation Harness (`_evaluate` and the two-phase protocol)

Query execution and transpilation are oracle fields of `EvalEnv`; a record
is one CSV row plus its derived `questionId`.  The per-record control flow
— every skip guard, the counter updates, and the CompatibleSet recording —
is embedded from the source in order. -/

structure EvalStats where
  total : ℕ := 0
  correct : ℕ := 0
  exec_errors : ℕ := 0
  transpile_errors : ℕ := 0
  mismatches : ℕ := 0
deriving DecidableEq

inductive ExecRes where
  | missingFile
  | err
  | rows (rs : List (List PyVal))

structure EvalEnv where
  /-- Gold answers keyed by questionId (`expected.get(qid)`). -/
  expected : String → Option PyVal
  /-- Abstracted `transpile_sql`; `none` models an exception. -/
  transpile : String → Option String
  /-- Live SQLite comparison: file presence and execution per (db_id, sql). -/
  sqliteExec : String → String → ExecRes
  /-- DuckDB execution per (root, db_id, duck_sql), including the
  file-presence check. -/
  duckExec : String → String → String → ExecRes

structure EvalCfg where
  compareToGold : Bool
  unordered : Bool
  rewriteFlag : Bool
  onlyDb : String
  recordCompatible : Bool

structure Rec where
  cols : List String
  qid : String

abbrev QKey := String × String

def recDbId (r : Rec) : String := pyStrip (r.cols.getD 0 "")

def recKey (r : Rec) : QKey := (recDbId r, r.qid)

structure EvalState where
  byDb : String → EvalStats
  compatible : Finset QKey

def initEvalState : EvalState := ⟨fun _ => {}, ∅⟩

def bumpStats (db : String) (f : EvalStats → EvalStats) (st : EvalState) : EvalState :=
  { st with byDb := fun d => if d = db then f (st.byDb d) else st.byDb d }

/-- The comparison outcome: gold answers ordered/unordered per
configuration, or the live-SQLite row comparison. -/
def evalOk (cfg : EvalCfg) (expSrc : PyVal ⊕ List (List PyVal))
    (got : List (List PyVal)) : Bool :=
  match expSrc with
  | .inl exp => if cfg.unordered then rows_equal_unordered exp got else rows_equal exp got
  | .inr sqlite_rows => rows_equal_sqlite_duckdb sqlite_rows got cfg.unordered

/-- The shared tail of the per-record procedure, from transpilation on:
transpile (failure bumps both error counters), optional rewrite, DuckDB
execution (missing file or engine error bump `exec_errors`), comparison
(gold answers ordered/unordered, or live-SQLite comparison), and the
correct/mismatch accounting with optional CompatibleSet recording. -/
def evalFinish (cfg : EvalCfg) (env : EvalEnv) (root : String) (db_id : String)
    (key : QKey) (gold_sql : String) (expSrc : PyVal ⊕ List (List PyVal))
    (st : EvalState) : EvalState :=
  match env.transpile gold_sql with
  | Option.none =>
    bumpStats db_id (fun s =>
      { s with transpile_errors := s.transpile_errors + 1,
               exec_errors := s.exec_errors + 1 }) st
  | some t =>
    let duck_sql := if cfg.rewriteFlag then rewrite_for_duckdb t else t
    match env.duckExec root db_id duck_sql with
    | .missingFile => bumpStats db_id (fun s => { s with exec_errors := s.exec_errors + 1 }) st
    | .err => bumpStats db_id (fun s => { s with exec_errors := s.exec_errors + 1 }) st
    | .rows got =>
      if evalOk cfg expSrc got then
        let st := bumpStats db_id (fun s => { s with correct := s.correct + 1 }) st
        if cfg.recordCompatible then { st with compatible := insert key st.compatible } else st
      else bumpStats db_id (fun s => { s with mismatches := s.mismatches + 1 }) st

/-- One record of `_evaluate`'s loop, including every skip guard in source
order: short rows, blank db/sql, `--db` scoping, the restriction-set check,
then the gold-answer lookup (gold mode) or the live SQLite execution
(sqlite mode), then the shared tail. -/
def evalStep (cfg : EvalCfg) (env : EvalEnv) (root : String)
    (restrict : Option (Finset QKey)) (st : EvalState) (r : Rec) : EvalState :=
  if r.cols.length < 4 then st
  else
    let db_id := recDbId r
    let gold_sql := r.cols.getD 3 ""
    if db_id = "" || gold_sql = "" then st
    else if cfg.onlyDb ≠ "" && db_id ≠ cfg.onlyDb then st
    else
      let key : QKey := (db_id, r.qid)
      let cont : Unit → EvalState := fun _ =>
        if cfg.compareToGold then
          match env.expected r.qid with
          | Option.none => st
          | some exp =>
            let st := bumpStats db_id (fun s => { s with total := s.total + 1 }) st
            evalFinish cfg env root db_id key gold_sql (.inl exp) st
        else
          let st := bumpStats db_id (fun s => { s with total := s.total + 1 }) st
          match env.sqliteExec db_id gold_sql with
          | .missingFile => bumpStats db_id (fun s => { s with exec_errors := s.exec_errors + 1 }) st
          | .err => bumpStats db_id (fun s => { s with exec_errors := s.exec_errors + 1 }) st
          | .rows sqlite_rows => evalFinish cfg env root db_id key gold_sql (.inr sqlite_rows) st
      match restrict with
      | some s => if key ∈ s then cont () else st
      | Option.none => cont ()

/-- One `_evaluate` pass over the record corpus. -/
def evaluatePass (cfg : EvalCfg) (env : EvalEnv) (root : String)
    (restrict : Option (Finset QKey)) (recs : List Rec) : EvalState :=
  recs.foldl (evalStep cfg env root restrict) initEvalState

/-- The two-phase protocol of `main` under `--drop-columns`: phase 1 runs
unrestricted with CompatibleSet recording; phase 2 runs over the mutated
root restricted to exactly phase 1's CompatibleSet. -/
def twoPhase (cfg : EvalCfg) (env : EvalEnv) (rootBase rootDrop : String)
    (recs : List Rec) : EvalState × EvalState :=
  let p1 := evaluatePass { cfg with recordCompatible := true } env rootBase Option.none recs
  (p1, evaluatePass { cfg with recordCompatible := false } env rootDrop (some p1.compatible) recs)

/-! ## Specification-side helper definitions

These do not embed source code; they are the decoding functions and
predicates the theorems below are stated with. -/

/-- Decoder for the decimal rendering (left inverse of `natDecimalChars`). -/
def decodeNatDec (cs : List Char) : ℕ := Nat.ofDigits 10 (cs.reverse.map charDigit)

/-- Decoder for the signed decimal rendering (left inverse of
`intDecimalChars`). -/
def decodeIntDec : List Char → ℤ
  | [] => 0
  | c :: rest => if c = '-' then -(decodeNatDec rest : ℤ) else (decodeNatDec (c :: rest) : ℤ)

/-- The `EvalStats` accounting identity of claim C10. -/
def statsInv (s : EvalStats) : Prop :=
  s.total = s.correct + s.mismatches + s.exec_errors ∧ s.transpile_errors ≤ s.exec_errors

/-- The accounting identity on every per-database record. -/
def invAll (st : EvalState) : Prop := ∀ db, statsInv (st.byDb db)

/-- A (table, column) pair the `process_db` loop cannot resolve: unknown
table, or known table without that column. -/
def pairUnresolvable (db : PreDb) (pr : String × String) : Prop :=
  _resolve_table_name pr.1 db.tableNames = Option.none ∨
    ∃ t, _resolve_table_name pr.1 db.tableNames = some t ∧
      colMapLookup (db.tableCols t) (lowerStr pr.2) = Option.none

/-! # Theorems -/

/-! ## Decimal rendering: the injectivity chain behind per-row dummy values -/

lemma natDigitsAux_eq_digits (fuel : ℕ) : ∀ n : ℕ, n ≤ fuel →
    natDigitsAux fuel n = Nat.digits 10 n := by
  induction fuel with
  | zero =>
    intro n h
    obtain rfl : n = 0 := Nat.le_zero.mp h
    simp [natDigitsAux]
  | succ fuel ih =>
    intro n h
    cases n with
    | zero => simp [natDigitsAux]
    | succ m =>
      rw [natDigitsAux, ih ((m + 1) / 10)
        (by
          have : (m + 1) / 10 < m + 1 := Nat.div_lt_self (Nat.succ_pos m) (by norm_num)
          omega),
        Nat.digits_def' (by norm_num : 1 < 10) (Nat.succ_pos m)]
      exact Nat.succ_ne_zero m

lemma natDigits10_eq_digits (n : ℕ) : natDigits10 n = Nat.digits 10 n :=
  natDigitsAux_eq_digits n n le_rfl

lemma charDigit_digitChar : ∀ d < 10, charDigit (digitChar d) = d := by decide

lemma digitChar_ne_dash : ∀ d < 10, digitChar d ≠ '-' := by decide

lemma decodeNat_natDecimalChars (n : ℕ) : decodeNatDec (natDecimalChars n) = n := by
  by_cases h : n = 0
  · subst h; decide
  · rw [natDecimalChars, if_neg h, natDigits10_eq_digits, decodeNatDec, List.reverse_reverse,
      List.map_map]
    have hcongr : ∀ d ∈ Nat.digits 10 n, (charDigit ∘ digitChar) d = id d := fun d hd =>
      charDigit_digitChar d (Nat.digits_lt_base (by norm_num) hd)
    rw [List.map_congr_left hcongr, List.map_id, Nat.ofDigits_digits]

lemma natDecimalChars_injective : Function.Injective natDecimalChars :=
  Function.LeftInverse.injective decodeNat_natDecimalChars

lemma natDecimalChars_digits (n : ℕ) :
    ∀ c ∈ natDecimalChars n, ∃ d, d < 10 ∧ c = digitChar d := by
  intro c hc
  rw [natDecimalChars] at hc
  by_cases h : n = 0
  · rw [if_pos h] at hc
    exact ⟨0, by norm_num, by simpa [digitChar] using (List.mem_singleton.mp hc)⟩
  · rw [if_neg h, List.mem_reverse] at hc
    obtain ⟨d, hd, rfl⟩ := List.mem_map.mp hc
    rw [natDigits10_eq_digits] at hd
    exact ⟨d, Nat.digits_lt_base (by norm_num) hd, rfl⟩

lemma natDecimalChars_ne_dash (n : ℕ) : ∀ c ∈ natDecimalChars n, c ≠ '-' := by
  intro c hc
  obtain ⟨d, hd, rfl⟩ := natDecimalChars_digits n c hc
  exact digitChar_ne_dash d hd

lemma natDecimalChars_ne_nil (n : ℕ) : natDecimalChars n ≠ [] := by
  rw [natDecimalChars]
  by_cases h : n = 0
  · simp [h]
  · rw [if_neg h]
    simp only [ne_eq, List.reverse_eq_nil_iff, List.map_eq_nil_iff]
    rw [natDigits10_eq_digits]
    exact Nat.digits_ne_nil_iff_ne_zero.mpr h

lemma decodeInt_intDecimalChars (z : ℤ) : decodeIntDec (intDecimalChars z) = z := by
  rw [intDecimalChars]
  by_cases h : z < 0
  · rw [if_pos h]
    have hstep : decodeIntDec ('-' :: natDecimalChars z.natAbs) =
        -(decodeNatDec (natDecimalChars z.natAbs) : ℤ) := by
      simp [decodeIntDec]
    rw [hstep, decodeNat_natDecimalChars]
    omega
  · rw [if_neg h]
    obtain ⟨c, rest, hc⟩ := List.exists_cons_of_ne_nil (natDecimalChars_ne_nil z.natAbs)
    have hdash : c ≠ '-' := by
      apply natDecimalChars_ne_dash z.natAbs
      rw [hc]; exact List.mem_cons_self c rest
    rw [hc, decodeIntDec, if_neg hdash, ← hc, decodeNat_natDecimalChars]
    omega

lemma intDecimalChars_injective : Function.Injective intDecimalChars :=
  Function.LeftInverse.injective decodeInt_intDecimalChars

lemma string_mk_data_inj {a b : List Char} (h : (⟨a⟩ : String) = ⟨b⟩) : a = b := by
  injection h

lemma string_append_data (a b : String) : (a ++ b).data = a.data ++ b.data := by
  cases a; cases b; rfl

lemma intDecimalStr_injective : Function.Injective intDecimalStr := by
  intro a b h
  exact intDecimalChars_injective (string_mk_data_inj h)

lemma dropped_str_injective :
    Function.Injective (fun z : ℤ => "__DROPPED__" ++ intDecimalStr z) := by
  intro a b h
  have hd := congrArg String.data h
  rw [string_append_data, string_append_data] at hd
  have := List.append_cancel_left hd
  exact intDecimalStr_injective (by
    cases hs : intDecimalStr a
    cases ht : intDecimalStr b
    rw [hs, ht] at this
    simp_all)

/-! ## C1: constraint-aware nullification -/

lemma uniqueDummyVal_injective (ci : ColInfo) : Function.Injective (uniqueDummyVal ci) := by
  intro a b h
  unfold uniqueDummyVal at h
  by_cases hnum : numericLikeType ci.decl_type
  · rw [if_pos hnum, if_pos hnum] at h
    by_cases hpk : ci.pk && strContains (upperStr ci.decl_type) "INT"
    · rw [if_pos hpk, if_pos hpk] at h
      have := SVal.int.inj h
      omega
    · rw [if_neg hpk, if_neg hpk] at h
      exact SVal.int.inj h
  · rw [if_neg hnum, if_neg hnum] at h
    exact dropped_str_injective (SVal.text.inj h)

lemma uniqueDummyVal_ne_null (ci : ColInfo) (rowid : ℤ) :
    uniqueDummyVal ci rowid ≠ SVal.null := by
  unfold uniqueDummyVal
  by_cases hnum : numericLikeType ci.decl_type
  · rw [if_pos hnum]; split <;> simp
  · rw [if_neg hnum]; simp

lemma duck_empty_ne_null (t : String) : _duck_empty_value t ≠ SVal.null := by
  unfold _duck_empty_value
  dsimp only
  split
  · simp
  · split
    · simp
    · split <;> simp

lemma contains_false_of_not_mem {l : List SVal} {v : SVal} (h : v ∉ l) :
    l.contains v = false := by
  induction l with
  | nil => rfl
  | cons x xs ih =>
    have hx : ¬(v = x) := fun hvx => h (hvx ▸ List.mem_cons_self x xs)
    have hxs : v ∉ xs := fun hm => h (List.mem_cons_of_mem x hm)
    rw [List.contains_cons, ih hxs]
    simp [beq_eq_false_iff_ne, hx]

lemma contains_true_of_mem {l : List SVal} {v : SVal} (h : v ∈ l) :
    l.contains v = true := by
  induction l with
  | nil => cases h
  | cons x xs ih =>
    rw [List.contains_cons]
    rcases List.mem_cons.mp h with hvx | hm
    · simp [hvx]
    · rw [ih hm]; simp

lemma dupNonNull_eq_false (vals : List SVal) (h : vals.Nodup) : dupNonNull vals = false := by
  induction vals with
  | nil => rfl
  | cons v rest ih =>
    have h1 : v ∉ rest := (List.nodup_cons.mp h).1
    have h2 := ih (List.nodup_cons.mp h).2
    rw [dupNonNull, contains_false_of_not_mem h1, h2]
    simp

lemma violatesCol_true_of_null {ci : ColInfo} {isU : Bool} {vals : List SVal}
    (hn : ci.notnull = true) (hv : SVal.null ∈ vals) : violatesCol ci isU vals = true := by
  rw [violatesCol, hn, contains_true_of_mem hv]
  simp

lemma violatesCol_false {ci : ColInfo} {isU : Bool} {vals : List SVal}
    (h1 : SVal.null ∉ vals) (h2 : vals.Nodup) : violatesCol ci isU vals = false := by
  rw [violatesCol, contains_false_of_not_mem h1, dupNonNull_eq_false _ h2]
  simp

lemma updateCol_eq_none {ci : ColInfo} {isU : Bool} {rows : List SRow} {f : ℤ → SVal}
    (h : violatesCol ci isU ((rows.map (fun r => { r with val := f r.rowid })).map SRow.val) = true) :
    updateCol ci isU rows f = Option.none := by
  unfold updateCol
  simp only [h]
  rfl

lemma updateCol_eq_some {ci : ColInfo} {isU : Bool} {rows : List SRow} {f : ℤ → SVal}
    (h : violatesCol ci isU ((rows.map (fun r => { r with val := f r.rowid })).map SRow.val) = false) :
    updateCol ci isU rows f = some (rows.map (fun r => { r with val := f r.rowid })) := by
  unfold updateCol
  simp only [h]
  rfl

/-- Claim C1 (amended): SQLite-side mutator (`preprocess_dbs._apply_nullify`):
for a NOT NULL column that is a primary key or a UNIQUE-index member, with
rows present (so `SET col = NULL` is rejected by the engine), usable and
pairwise-distinct rowids, the mutator replaces each row's value with its
per-row dummy (`-rowid` for an integer primary key, `rowid` for other
numeric-like columns, the `__DROPPED__<rowid>` placeholder string for the
rest), succeeds with no error and no escaping exception, and no two
resulting rows collide on the column.  DuckDB-side mutator
(`nullify_columns_in_duckdb`): there is no per-row fallback — when NULL is
rejected on a NOT NULL + UNIQUE column with at least two rows, the shared
empty-value retry also violates the constraint and the column is counted
as failed (error returned, rows unchanged, still no escaping exception). -/
theorem C1_per_row_unique_dummy
    (ci : ColInfo) (uniqueCols : List String) (tbl : STable)
    (hn : ci.notnull = true)
    (hu : ci.pk = true ∨ uniqueCols.contains (lowerStr ci.name) = true)
    (hr : tbl.rowidOk = true)
    (hnd : (tbl.rows.map SRow.rowid).Nodup)
    (hne : tbl.rows ≠ []) :
    (_apply_nullify ci uniqueCols tbl).1 = Option.none ∧
    (_apply_nullify ci uniqueCols tbl).2 =
      tbl.rows.map (fun r => { r with val := uniqueDummyVal ci r.rowid }) ∧
    ((_apply_nullify ci uniqueCols tbl).2.map SRow.val).Nodup ∧
    (∀ rowid : ℤ, numericLikeType ci.decl_type = true →
        ci.pk = true → strContains (upperStr ci.decl_type) "INT" = true →
        uniqueDummyVal ci rowid = .int (-rowid)) ∧
    (∀ rowid : ℤ, numericLikeType ci.decl_type = true →
        ¬(ci.pk = true ∧ strContains (upperStr ci.decl_type) "INT" = true) →
        uniqueDummyVal ci rowid = .int rowid) ∧
    (∀ rowid : ℤ, numericLikeType ci.decl_type = false →
        uniqueDummyVal ci rowid = .text ("__DROPPED__" ++ intDecimalStr rowid)) ∧
    (∀ (ci' : ColInfo) (tbl' : STable), ci'.notnull = true → 2 ≤ tbl'.rows.length →
        (duckNullifyColumn ci' true tbl').1 ≠ Option.none ∧
        (duckNullifyColumn ci' true tbl').2 = tbl'.rows) := by
  have hisU : (ci.pk || uniqueCols.contains (lowerStr ci.name)) = true := by
    rcases hu with h | h
    · rw [h, Bool.true_or]
    · rw [h, Bool.or_true]
  -- the NULL update is rejected: the column is NOT NULL and there is a row
  have hnullfail :
      updateCol ci (ci.pk || uniqueCols.contains (lowerStr ci.name)) tbl.rows
        (fun _ => SVal.null) = Option.none := by
    apply updateCol_eq_none
    apply violatesCol_true_of_null hn
    obtain ⟨r, rs, hrs⟩ := List.exists_cons_of_ne_nil hne
    rw [hrs]
    simp
  -- shape facts about the per-row dummy column
  have hvals :
      ((tbl.rows.map (fun r => { r with val := uniqueDummyVal ci r.rowid })).map SRow.val) =
        (tbl.rows.map SRow.rowid).map (uniqueDummyVal ci) := by
    simp [List.map_map]
  have hnodupVals :
      ((tbl.rows.map (fun r => { r with val := uniqueDummyVal ci r.rowid })).map SRow.val).Nodup := by
    rw [hvals]
    exact hnd.map (uniqueDummyVal_injective ci)
  have hnonull :
      SVal.null ∉
        (tbl.rows.map (fun r => { r with val := uniqueDummyVal ci r.rowid })).map SRow.val := by
    rw [hvals]
    intro hmem
    obtain ⟨z, _, hz⟩ := List.mem_map.mp hmem
    exact uniqueDummyVal_ne_null ci z hz
  have hdummyok :
      updateCol ci (ci.pk || uniqueCols.contains (lowerStr ci.name)) tbl.rows
        (uniqueDummyVal ci) = some
          (tbl.rows.map (fun r => { r with val := uniqueDummyVal ci r.rowid })) :=
    updateCol_eq_some (violatesCol_false hnonull hnodupVals)
  have happly :
      _apply_nullify ci uniqueCols tbl =
        (Option.none, tbl.rows.map (fun r => { r with val := uniqueDummyVal ci r.rowid })) := by
    unfold _apply_nullify
    dsimp only
    rw [hnullfail]
    rw [hn, hisU]
    simp only [Bool.and_self, if_true]
    unfold _apply_unique_dummy
    rw [hr]
    simp only [Bool.not_true, Bool.false_eq_true, if_false]
    have hdummyok' := hdummyok
    rw [hisU] at hdummyok'
    rw [hdummyok']
  refine ⟨by rw [happly], by rw [happly], by rw [happly]; exact hnodupVals, ?_, ?_, ?_, ?_⟩
  · intro rowid hnum hpk hint
    unfold uniqueDummyVal
    rw [if_pos hnum, if_pos (by rw [hpk, hint]; rfl)]
  · intro rowid hnum hnot
    unfold uniqueDummyVal
    rw [if_pos hnum, if_neg (by simpa [Bool.and_eq_true] using hnot)]
  · intro rowid hnum
    unfold uniqueDummyVal
    rw [if_neg (by simp [hnum])]
  · intro ci' tbl' hn' hlen
    obtain ⟨r1, rest1, h1⟩ := List.exists_cons_of_ne_nil
      (l := tbl'.rows) (by intro hnil; rw [hnil] at hlen; simp at hlen)
    obtain ⟨r2, rest2, h2⟩ := List.exists_cons_of_ne_nil
      (l := rest1) (by intro hnil; rw [h1, hnil] at hlen; simp at hlen)
    have hnull' :
        updateCol ci' true tbl'.rows (fun _ => SVal.null) = Option.none := by
      apply updateCol_eq_none
      apply violatesCol_true_of_null hn'
      rw [h1]
      simp
    have hshared :
        updateCol ci' true tbl'.rows (fun _ => _duck_empty_value ci'.decl_type) =
          Option.none := by
      apply updateCol_eq_none
      rw [violatesCol]
      have hdup :
          dupNonNull
            ((tbl'.rows.map (fun r =>
              { r with val := _duck_empty_value ci'.decl_type })).map SRow.val) = true := by
        rw [h1, h2]
        simp only [List.map_cons, dupNonNull]
        rw [contains_true_of_mem (by exact List.mem_cons_self _ _)]
        have hnn : _duck_empty_value ci'.decl_type ≠ SVal.null := duck_empty_ne_null _
        simp [hnn]
      rw [hdup]
      simp
    unfold duckNullifyColumn
    rw [hnull', hshared]
    simp

/-- Claim C1 (counterexample to the claim as stated): On a NOT NULL +
UNIQUE integer-primary-key column with two rows, the DuckDB-side mutator —
one of the claim's two named mutators — does not switch to per-row distinct
values: the NULL update is rejected, the shared empty-value retry is also
rejected, and the column is counted as failed with its rows unchanged. -/
theorem C1_duck_no_per_row_dummy :
    updateCol ⟨"id", "INTEGER", true, true⟩ true
        [⟨1, .int 1⟩, ⟨2, .int 2⟩] (fun _ => SVal.null) = Option.none ∧
    (duckNullifyColumn ⟨"id", "INTEGER", true, true⟩ true
        ⟨[⟨1, .int 1⟩, ⟨2, .int 2⟩], true⟩).1 = some "constraint violation" ∧
    (duckNullifyColumn ⟨"id", "INTEGER", true, true⟩ true
        ⟨[⟨1, .int 1⟩, ⟨2, .int 2⟩], true⟩).2 = [⟨1, .int 1⟩, ⟨2, .int 2⟩] := by
  refine ⟨by decide, by decide, by decide⟩

/-- Claim C1 (witness): The amended theorem applied to a concrete NOT NULL
integer-primary-key column with rows at rowids 1 and 2. -/
theorem C1_witness :
    (_apply_nullify ⟨"id", "INTEGER", true, true⟩ []
        ⟨[⟨1, .int 7⟩, ⟨2, .int 9⟩], true⟩).1 = Option.none ∧
    (_apply_nullify ⟨"id", "INTEGER", true, true⟩ []
        ⟨[⟨1, .int 7⟩, ⟨2, .int 9⟩], true⟩).2 =
      [⟨1, .int (-1)⟩, ⟨2, .int (-2)⟩] ∧
    ((_apply_nullify ⟨"id", "INTEGER", true, true⟩ []
        ⟨[⟨1, .int 7⟩, ⟨2, .int 9⟩], true⟩).2.map SRow.val).Nodup := by
  obtain ⟨h1, h2, h3, _⟩ := C1_per_row_unique_dummy ⟨"id", "INTEGER", true, true⟩ []
    ⟨[⟨1, .int 7⟩, ⟨2, .int 9⟩], true⟩ rfl (Or.inl rfl) rfl (by decide) (by decide)
  exact ⟨h1, by rw [h2]; decide, h3⟩

/-! ## C3: booleans in `scalar_equal` -/

/-- Claim C3 (counterexample to the claim as stated): `scalar_equal` on the
boolean `True` and the integer `1` returns `True`, not `False`: the
numeric-tolerance path is indeed skipped (`_num` rejects booleans), but the
final fallback is Python `==`, under which `True == 1`. -/
theorem C3_bool_one_equal : scalar_equal (.boolV true) (.intV 1) = true := by decide

/-- Claim C3 (amended): Booleans are excluded from numeric coercion, so the
numeric-tolerance path never runs for a boolean operand; but the structural
`==` fallback still equates `True` with `1`/`1.0` and `False` with `0`.
Only against the *string* forms of 0/1 does the exclusion make the
comparison false. -/
theorem C3_bool_numeric_exclusion :
    (∀ b : Bool, _num (.boolV b) = Option.none) ∧
    scalar_equal (.boolV true) (.intV 1) = true ∧
    scalar_equal (.boolV false) (.intV 0) = true ∧
    scalar_equal (.boolV true) (.floatV 1) = true ∧
    scalar_equal (.boolV true) (.strV "1") = false ∧
    scalar_equal (.boolV false) (.strV "0") = false := by
  refine ⟨fun b => rfl, by decide, by decide, ?_, by decide, by decide⟩
  show (if _ then _ else _) = true
  norm_num [isNoneV, bytesDictToTuple, isTupleV, _num, pyEq, pyNumVal, pyNumEq]

/-! ## C4: the rewrite rule table's escaped-backslash replacements -/

set_option maxRecDepth 1000000

/-- Claim C4 (code bug): On the inputs the two rewrites are meant for, the
output contains the literal two-character sequences `\\1` / `\\2` instead of
the matched groups: the replacement templates are raw strings in which
`\\\\1` / `\\\\2` are escaped backslashes followed by digits, not group
references.  The birthday reference (and its table qualifier) and the
projected column qualifier are destroyed rather than preserved inside
`CAST(... AS TIMESTAMP)` / `ANY_VALUE(...)`.  The neighbouring STRFTIME
rewrite, whose template uses a real backreference, substitutes correctly —
evidence that the escaped backslashes in the other two are a slip. -/
theorem C4_rewrite_emits_literal_backslash :
    rewrite_for_duckdb "SELECT CURRENT_TIMESTAMP - t1.birthday FROM Player" =
      "SELECT \\1 - CAST(\\2birthday AS TIMESTAMP) FROM Player" ∧
    rewrite_for_duckdb "SELECT T1.player_name FROM Player AS T1" =
      "SELECT ANY_VALUE(\\1player_name) AS player_name FROM Player AS T1" ∧
    rewrite_for_duckdb "SELECT teamInfo.team_long_name FROM teamInfo" =
      "SELECT ANY_VALUE(\\1team_long_name) AS team_long_name FROM teamInfo" ∧
    rewrite_for_duckdb "SELECT STRFTIME(a.x, '%Y') - STRFTIME(b.y, '%Y') FROM t" =
      "SELECT CAST(STRFTIME(a.x, '%Y') AS INTEGER) - CAST(STRFTIME(b.y, '%Y') AS INTEGER) FROM t" := by
  refine ⟨by decide, by decide, by decide, by decide⟩

/-! ## C5: the numeric-tolerance comparison -/

lemma isclose_self (q : ℚ) : isclose q q = true := by
  rw [isclose, decide_eq_true_eq, sub_self, abs_zero]
  refine le_max_of_le_right ?_
  rw [relTol]
  norm_num

lemma _num_some_shape {a : PyVal} {na : PyNum} (h : _num a = some na) :
    isNoneV a = false ∧ bytesDictToTuple a = a ∧ isTupleV a = false := by
  cases a <;> simp_all [_num, isNoneV, bytesDictToTuple, isTupleV]

/-- Claim C5: Whenever both operands coerce to a number (`_num` gives a
value for ints, floats, Decimals, digit-strings via the exact integer
parse, and other numeric-looking strings via the float parse),
`scalar_equal` is exactly `math.isclose` with the combined
relative/absolute 1e-9 tolerance; and concretely `scalarsEqual(1, 1.0)`,
`scalarsEqual("3", 3)` and `scalarsEqual(1e-10, 0)` hold while
`scalarsEqual("abc", 0)` fails. -/
theorem C5_numeric_tolerance :
    (∀ (a b : PyVal) (na nb : PyNum), _num a = some na → _num b = some nb →
        scalar_equal a b = iscloseN na nb) ∧
    scalar_equal (.intV 1) (.floatV 1) = true ∧
    scalar_equal (.strV "3") (.intV 3) = true ∧
    scalar_equal (.floatV (1 / 10000000000)) (.intV 0) = true ∧
    scalar_equal (.strV "abc") (.intV 0) = false := by
  have hgen : ∀ (a b : PyVal) (na nb : PyNum), _num a = some na → _num b = some nb →
      scalar_equal a b = iscloseN na nb := by
    intro a b na nb h1 h2
    obtain ⟨ha1, ha2, ha3⟩ := _num_some_shape h1
    obtain ⟨hb1, hb2, hb3⟩ := _num_some_shape h2
    rw [scalar_equal]
    rw [ha1, hb1]
    simp only [Bool.and_self, Bool.false_and, Bool.false_eq_true, if_false]
    rw [ha2, hb2, ha3, hb3]
    simp only [Bool.or_self, Bool.false_eq_true, if_false]
    rw [h1, h2]
  refine ⟨hgen, ?_, ?_, ?_, by decide⟩
  · rw [hgen (.intV 1) (.floatV 1) (.fin 1) (.fin 1) (by norm_num [_num]) rfl]
    exact isclose_self 1
  · rw [hgen (.strV "3") (.intV 3) (.fin 3) (.fin 3) (by decide) (by norm_num [_num])]
    exact isclose_self 3
  · rw [hgen (.floatV (1 / 10000000000)) (.intV 0) (.fin (1 / 10000000000)) (.fin 0) rfl
      (by norm_num [_num])]
    show isclose (1 / 10000000000) 0 = true
    rw [isclose, decide_eq_true_eq]
    have h1 : |(1 / 10000000000 : ℚ) - 0| = 1 / 10000000000 := by norm_num
    rw [h1]
    refine le_max_of_le_right ?_
    rw [relTol]
    norm_num

/-- Claim C5 (witness): The tolerance theorem applied to the string "3" and
the integer 3. -/
theorem C5_witness :
    _num (.strV "3") = some (.fin 3) ∧ _num (.intV 3) = some (.fin 3) ∧
    scalar_equal (.strV "3") (.intV 3) = iscloseN (.fin 3) (.fin 3) := by
  refine ⟨by decide, by norm_num [_num], ?_⟩
  exact C5_numeric_tolerance.1 (.strV "3") (.intV 3) (.fin 3) (.fin 3)
    (by decide) (by norm_num [_num])

/-! ## C6: determinism and reflexivity of the canonicalizer -/

/-- Claim C6 (counterexample to the claim as stated): canonicalisation is
deterministic, but scalar equivalence is NOT reflexive on every canonical
value.  The engine-native float NaN — a value `DOUBLE` columns natively
produce — passes through `_jsonable_scalar` unchanged, `_num` coerces it,
and `math.isclose(nan, nan)` is `False`, so the self-comparison fails; the
string `"nan"` fails the same way, because `float("nan")` parses to NaN
and the comparison takes the numeric path rather than string equality. -/
theorem C6_nan_not_reflexive :
    scalar_equal (_jsonable_scalar .nanV) (_jsonable_scalar .nanV) = false ∧
    scalar_equal (_jsonable_scalar (.strV "nan")) (_jsonable_scalar (.strV "nan")) = false := by
  exact ⟨by decide, by decide⟩

/-- Claim C6 (amended): `_jsonable_scalar` is deterministic (it is a
function: equal inputs give equal outputs), and `scalar_equal` is
reflexive on every canonical value that does not coerce to the float NaN:
for those, every canonical value compares equal to itself.  (At a
NaN-coercing canonical value — the engine NaN itself, or a string such as
`"nan"` — the numeric path compares with `math.isclose`, which rejects NaN
even against itself; the infinities coerce too but `math.isclose` accepts
each of them against itself, so they remain reflexive.) -/
theorem C6_canonicalize_reflexive_nanfree :
    ∀ v : PyVal, _jsonable_scalar v = _jsonable_scalar v ∧
      (_num (_jsonable_scalar v) ≠ some .nan →
        scalar_equal (_jsonable_scalar v) (_jsonable_scalar v) = true) := by
  intro v
  refine ⟨rfl, fun hnan => ?_⟩
  have hstr : ∀ s : String, _num (.strV s) ≠ some PyNum.nan →
      scalar_equal (.strV s) (.strV s) = true := by
    intro s hn
    rw [scalar_equal]
    cases h : _num (.strV s) with
    | none =>
      simp only [isNoneV, bytesDictToTuple, isTupleV, h]
      simp [pyEq]
    | some pn =>
      cases pn with
      | fin q =>
        simp only [isNoneV, bytesDictToTuple, isTupleV, h]
        simp [iscloseN, isclose_self]
      | nan => exact absurd h hn
      | inf =>
        simp only [isNoneV, bytesDictToTuple, isTupleV, h]
        simp [iscloseN]
      | ninf =>
        simp only [isNoneV, bytesDictToTuple, isTupleV, h]
        simp [iscloseN]
  have hfloat : ∀ q : ℚ, scalar_equal (.floatV q) (.floatV q) = true := by
    intro q
    rw [scalar_equal]
    simp only [isNoneV, bytesDictToTuple, isTupleV, _num]
    simp [iscloseN, isclose_self]
  have hrepr : ∀ t r : String, scalar_equal (.pyReprV t r) (.pyReprV t r) = true := by
    intro t r
    rw [scalar_equal]
    simp only [isNoneV, bytesDictToTuple, isTupleV, _num]
    simp [pyEq]
  cases v with
  | noneV => decide
  | boolV b => cases b <;> decide
  | intV z =>
    show scalar_equal (.intV z) (.intV z) = true
    rw [scalar_equal]
    simp only [isNoneV, bytesDictToTuple, isTupleV, _num]
    simp [iscloseN, isclose_self]
  | floatV q => exact hfloat q
  | nanV => exact absurd rfl hnan
  | infV => decide
  | ninfV => decide
  | strV s => exact hstr s hnan
  | decimalV q => exact hfloat q
  | bytesV bs =>
    show scalar_equal (.bytesTag (b64encode bs)) (.bytesTag (b64encode bs)) = true
    rw [scalar_equal]
    simp only [isNoneV, bytesDictToTuple, isTupleV]
    simp [pyEq, pyEqList]
  | withIso iso => exact hstr iso hnan
  | foreignObj t r => exact hrepr _ _
  | listV xs => exact hrepr _ _
  | tupleV xs => exact hrepr _ _
  | bytesTag b => exact hrepr _ _
  | pyReprV t r => exact hrepr _ _

/-- Claim C6 (witness): The amended reflexivity theorem applied to the
canonical image of a concrete non-NaN value. -/
theorem C6_witness :
    _num (_jsonable_scalar (.strV "abc")) ≠ some PyNum.nan ∧
    scalar_equal (_jsonable_scalar (.strV "abc")) (_jsonable_scalar (.strV "abc")) = true := by
  exact ⟨by decide, (C6_canonicalize_reflexive_nanfree (.strV "abc")).2 (by decide)⟩

/-! ## C7: `rows_equal_unordered` as multiset comparison -/

lemma collect_cons {x : PyVal} {xs : List PyVal} {rs : List (List PyVal)}
    (h : collectListRows (x :: xs) = some rs) :
    ∃ r t, asListRow x = some r ∧ collectListRows xs = some t ∧ rs = r :: t := by
  rw [collectListRows] at h
  cases ha : asListRow x with
  | none => rw [ha] at h; cases h
  | some r =>
    rw [ha] at h
    obtain ⟨t, ht, hrt⟩ := Option.map_eq_some'.mp h
    exact ⟨r, t, rfl, ht, hrt.symm⟩

lemma collectListRows_perm {es es' : List PyVal} (h : es.Perm es') :
    ∀ {rs : List (List PyVal)}, collectListRows es = some rs →
      ∃ rs', collectListRows es' = some rs' ∧ rs.Perm rs' := by
  induction h with
  | nil =>
    intro rs h
    exact ⟨rs, h, List.Perm.refl rs⟩
  | cons x hperm ih =>
    intro rs hcol
    obtain ⟨r, t, hx, ht, rfl⟩ := collect_cons hcol
    obtain ⟨t', ht', htperm⟩ := ih ht
    refine ⟨r :: t', ?_, htperm.cons r⟩
    rw [collectListRows, hx, ht']
    rfl
  | swap x y l =>
    intro rs hcol
    obtain ⟨ry, t1, hy, ht1, rfl⟩ := collect_cons hcol
    obtain ⟨rx, t2, hx, ht2, rfl⟩ := collect_cons ht1
    refine ⟨rx :: ry :: t2, ?_, List.Perm.swap rx ry t2⟩
    rw [collectListRows, hx, collectListRows, hy, ht2]
    rfl
  | trans h1 h2 ih1 ih2 =>
    intro rs hcol
    obtain ⟨rs1, hrs1, hperm1⟩ := ih1 hcol
    obtain ⟨rs2, hrs2, hperm2⟩ := ih2 hrs1
    exact ⟨rs2, hrs2, hperm1.trans hperm2⟩

lemma rows_counter_perm {g g' : List (List PyVal)} (h : g.Perm g') :
    _rows_as_counter g = _rows_as_counter g' := by
  rw [_rows_as_counter, _rows_as_counter]
  exact Multiset.coe_eq_coe.mpr (h.map _)

/-- Claim C7: `rows_equal_unordered` compares the two result sets as
multisets of stable per-row keys: it is invariant under any permutation of
either operand's rows; on a well-formed expected value (a list of lists) it
returns true exactly when every key has the same total multiplicity on both
sides (so it is false whenever any per-key multiplicity differs); and it is
false outright on a non-list expected value. -/
theorem C7_unordered_is_multiset_equality :
    (∀ (es es' : List PyVal) (g g' : List (List PyVal)), es.Perm es' → g.Perm g' →
        rows_equal_unordered (.listV es) g = rows_equal_unordered (.listV es') g') ∧
    (∀ (es : List PyVal) (g : List (List PyVal)),
        rows_equal_unordered (.listV es) g = true ↔
          ∃ rs, collectListRows es = some rs ∧
            ∀ k, Multiset.count k (_rows_as_counter rs) =
              Multiset.count k (_rows_as_counter g)) ∧
    (∀ (e : PyVal) (g : List (List PyVal)), (∀ es, e ≠ .listV es) →
        rows_equal_unordered e g = false) := by
  refine ⟨?_, ?_, ?_⟩
  · intro es es' g g' hes hg
    rw [rows_equal_unordered, rows_equal_unordered]
    cases hcol : collectListRows es with
    | some rs =>
      obtain ⟨rs', hcol', hperm⟩ := collectListRows_perm hes hcol
      rw [hcol']
      dsimp only
      rw [rows_counter_perm hperm, rows_counter_perm hg]
    | none =>
      cases hcol' : collectListRows es' with
      | some rs' =>
        obtain ⟨rs, hback, _⟩ := collectListRows_perm hes.symm hcol'
        rw [hback] at hcol
        cases hcol
      | none => rfl
  · intro es g
    rw [rows_equal_unordered]
    cases hcol : collectListRows es with
    | some rs =>
      simp only [decide_eq_true_eq]
      constructor
      · intro hmeq
        exact ⟨rs, rfl, fun k => by rw [hmeq]⟩
      · rintro ⟨rs', hrs', hcount⟩
        obtain rfl : rs = rs' := Option.some.inj hrs'
        exact Multiset.ext.mpr hcount
    | none =>
      simp only [Bool.false_eq_true, false_iff]
      rintro ⟨rs', hrs', _⟩
      cases hrs'
  · intro e g h
    cases e with
    | listV es => exact absurd rfl (h es)
    | noneV => rfl
    | boolV b => rfl
    | intV z => rfl
    | floatV q => rfl
    | nanV => rfl
    | infV => rfl
    | ninfV => rfl
    | strV s => rfl
    | decimalV q => rfl
    | bytesV bs => rfl
    | withIso iso => rfl
    | foreignObj t r => rfl
    | tupleV xs => rfl
    | bytesTag b => rfl
    | pyReprV t r => rfl

/-- Claim C7 (witness): Permutation invariance applied to a concrete swap of
two expected rows. -/
theorem C7_witness :
    ([PyVal.listV [.intV 1], PyVal.listV [.intV 2]].Perm
        [PyVal.listV [.intV 2], PyVal.listV [.intV 1]]) ∧
    rows_equal_unordered (.listV [.listV [.intV 1], .listV [.intV 2]]) [[.intV 1]] =
      rows_equal_unordered (.listV [.listV [.intV 2], .listV [.intV 1]]) [[.intV 1]] := by
  refine ⟨List.Perm.swap _ _ _, ?_⟩
  exact C7_unordered_is_multiset_equality.1 _ _ _ _ (List.Perm.swap _ _ _) (List.Perm.refl _)

/-! ## C8: migration is a no-op when the target exists without force -/

lemma convert_present (env : ConvEnv) (force : Bool) (st : DuckFS) :
    (convert_sqlite_to_duckdb env force st).present = true := by
  rw [convert_sqlite_to_duckdb]
  by_cases h : (st.present && !force) = true
  · rw [if_pos h]
    exact (Bool.and_elim_left h)
  · rw [if_neg h]
    dsimp only
    split <;> rfl

/-- Claim C8: If the target database file exists and overwrite is not
forced, `convert_sqlite_to_duckdb` returns without converting, leaving the
state unchanged; every call leaves the target present, so a second
non-forced call — whatever conversion outcomes its environment would give —
changes nothing, and in particular the target's table set is unchanged
after the first call. -/
theorem C8_migrate_noop_and_idempotent :
    (∀ (env : ConvEnv) (st : DuckFS), st.present = true →
        convert_sqlite_to_duckdb env false st = st) ∧
    (∀ (env : ConvEnv) (force : Bool) (st : DuckFS),
        (convert_sqlite_to_duckdb env force st).present = true) ∧
    (∀ (env env2 : ConvEnv) (force : Bool) (st : DuckFS),
        convert_sqlite_to_duckdb env2 false (convert_sqlite_to_duckdb env force st) =
          convert_sqlite_to_duckdb env force st) ∧
    (∀ (env env2 : ConvEnv) (force : Bool) (st : DuckFS),
        (convert_sqlite_to_duckdb env2 false (convert_sqlite_to_duckdb env force st)).tables =
          (convert_sqlite_to_duckdb env force st).tables) := by
  have hnoop : ∀ (env : ConvEnv) (st : DuckFS), st.present = true →
      convert_sqlite_to_duckdb env false st = st := by
    intro env st h
    rw [convert_sqlite_to_duckdb, if_pos (by rw [h]; rfl)]
  have hidem : ∀ (env env2 : ConvEnv) (force : Bool) (st : DuckFS),
      convert_sqlite_to_duckdb env2 false (convert_sqlite_to_duckdb env force st) =
        convert_sqlite_to_duckdb env force st :=
    fun env env2 force st => hnoop env2 _ (convert_present env force st)
  exact ⟨hnoop, convert_present, hidem,
    fun env env2 force st => congrArg DuckFS.tables (hidem env env2 force st)⟩

/-- Claim C8 (witness): The no-op clause applied to an existing target. -/
theorem C8_witness :
    convert_sqlite_to_duckdb ⟨Option.none, [], "db1"⟩ false ⟨true, ["t1", "t2"]⟩ =
      ⟨true, ["t1", "t2"]⟩ :=
  C8_migrate_noop_and_idempotent.1 ⟨Option.none, [], "db1"⟩ ⟨true, ["t1", "t2"]⟩ rfl

/-! ## C9: exit-code accounting of the preprocess mutator -/

lemma processPair_unresolvable {db : PreDb} {st : PreState} {pr : String × String}
    (h : pairUnresolvable db pr) :
    processPair db st pr = { st with counts.missing := st.counts.missing + 1 } := by
  rcases h with h | ⟨t, ht, hc⟩
  · rw [processPair, h]
  · rw [processPair, ht]
    dsimp only
    rw [hc]

lemma foldl_missing {db : PreDb} : ∀ (pairs : List (String × String)) (st : PreState),
    (∀ pr ∈ pairs, pairUnresolvable db pr) →
    (pairs.foldl (processPair db) st).counts =
      { applied := st.counts.applied, missing := st.counts.missing + pairs.length,
        failed := st.counts.failed } := by
  intro pairs
  induction pairs with
  | nil => intro st _; simp
  | cons pr rest ih =>
    intro st h
    rw [List.foldl_cons, processPair_unresolvable (h pr (List.mem_cons_self pr rest)),
      ih _ (fun q hq => h q (List.mem_cons_of_mem pr hq))]
    simp
    omega

lemma foldl_max_le {α : Type} (f : α → ℕ) : ∀ (l : List α) (acc : ℕ),
    acc ≤ l.foldl (fun a e => max a (f e)) acc ∧
      ∀ e ∈ l, f e ≤ l.foldl (fun a e => max a (f e)) acc := by
  intro l
  induction l with
  | nil => intro acc; simp
  | cons x xs ih =>
    intro acc
    rw [List.foldl_cons]
    refine ⟨le_trans (le_max_left _ _) (ih (max acc (f x))).1, ?_⟩
    intro e he
    rcases List.mem_cons.mp he with rfl | hm
    · exact le_trans (le_max_right _ _) (ih (max acc (f e))).1
    · exact (ih (max acc (f x))).2 e hm

lemma foldl_max_zero_iff {α : Type} (f : α → ℕ) : ∀ (l : List α) (acc : ℕ),
    (l.foldl (fun a e => max a (f e)) acc = 0 ↔ acc = 0 ∧ ∀ e ∈ l, f e = 0) := by
  intro l
  induction l with
  | nil => intro acc; simp
  | cons x xs ih =>
    intro acc
    rw [List.foldl_cons, ih (max acc (f x))]
    constructor
    · rintro ⟨hmax, hall⟩
      have hacc : acc = 0 ∧ f x = 0 := by
        constructor <;> omega
      exact ⟨hacc.1, fun e he => by
        rcases List.mem_cons.mp he with rfl | hm
        · exact hacc.2
        · exact hall e hm⟩
    · rintro ⟨hacc, hall⟩
      have hx : f x = 0 := hall x (List.mem_cons_self x xs)
      refine ⟨by omega, fun e he => hall e (List.mem_cons_of_mem x he)⟩

/-- Claim C9: `process_db` returns 0 exactly when its `failed` counter is
zero; references that fail to resolve are counted as `missing` only and
never make the exit code nonzero (a run in which every recognizable pair is
unresolvable exits 0 with `missing` equal to the number of pairs); the
process exit status of `main` is the pointwise maximum of the per-database
codes, so it is 0 exactly when every processed database's code is 0. -/
theorem C9_exit_code_accounting :
    (∀ (db : PreDb) (cols : List String),
        ((process_db db cols).1 = 0 ↔ (process_db db cols).2.counts.failed = 0)) ∧
    (∀ (db : PreDb) (cols : List String),
        (∀ pr ∈ (cols.map _iter_pairs).flatten, pairUnresolvable db pr) →
          (process_db db cols).1 = 0 ∧
          (process_db db cols).2.counts.failed = 0 ∧
          (process_db db cols).2.counts.missing = (cols.map _iter_pairs).flatten.length) ∧
    (∀ entries : List MainDbEntry,
        (preprocessMainExit entries = 0 ↔ ∀ e ∈ entries, perDbExitCode e = 0)) ∧
    (∀ (entries : List MainDbEntry) (e : MainDbEntry), e ∈ entries →
        perDbExitCode e ≤ preprocessMainExit entries) := by
  refine ⟨?_, ?_, ?_, ?_⟩
  · intro db cols
    rw [process_db]
    dsimp only
    split
    · simp_all
    · simp_all
  · intro db cols h
    have hfold := foldl_missing ((cols.map _iter_pairs).flatten) ⟨db.slice, {}⟩ h
    rw [process_db]
    dsimp only
    rw [hfold]
    simp
  · intro entries
    rw [preprocessMainExit]
    exact (foldl_max_zero_iff perDbExitCode entries 0).trans (by simp)
  · intro entries e he
    rw [preprocessMainExit]
    exact (foldl_max_le perDbExitCode entries 0).2 e he

/-- Claim C9 (witness): A database with no tables: the single recognizable
pair is counted missing, and the run exits 0. -/
theorem C9_witness :
    (∀ pr ∈ ((["a.b"].map _iter_pairs)).flatten,
        pairUnresolvable ⟨[], fun _ => [], fun _ => [], fun _ _ => ⟨[], true⟩⟩ pr) ∧
    (process_db ⟨[], fun _ => [], fun _ => [], fun _ _ => ⟨[], true⟩⟩ ["a.b"]).1 = 0 ∧
    (process_db ⟨[], fun _ => [], fun _ => [], fun _ _ => ⟨[], true⟩⟩ ["a.b"]).2.counts.missing =
      ((["a.b"].map _iter_pairs)).flatten.length := by
  have hunres : ∀ pr ∈ ((["a.b"].map _iter_pairs)).flatten,
      pairUnresolvable ⟨[], fun _ => [], fun _ => [], fun _ _ => ⟨[], true⟩⟩ pr :=
    fun pr _ => Or.inl rfl
  obtain ⟨h0, _, hm⟩ := C9_exit_code_accounting.2.1
    ⟨[], fun _ => [], fun _ => [], fun _ _ => ⟨[], true⟩⟩ ["a.b"] hunres
  exact ⟨hunres, h0, hm⟩

/-! ## C2 and C10: evaluation-harness bookkeeping -/

lemma bumpStats_byDb (db : String) (f : EvalStats → EvalStats) (st : EvalState) (d : String) :
    (bumpStats db f st).byDb d = if d = db then f (st.byDb db) else st.byDb d := by
  rw [bumpStats]
  by_cases h : d = db <;> simp [h]

lemma evalFinish_invAll (cfg : EvalCfg) (env : EvalEnv) (root db_id : String) (key : QKey)
    (gold_sql : String) (expSrc : PyVal ⊕ List (List PyVal)) (st : EvalState)
    (h : invAll st) :
    invAll (evalFinish cfg env root db_id key gold_sql expSrc
      (bumpStats db_id (fun s => { s with total := s.total + 1 }) st)) := by
  intro db
  obtain ⟨h1, h2⟩ := h db
  obtain ⟨h1', h2'⟩ := h db_id
  rw [evalFinish]
  cases htr : env.transpile gold_sql with
  | none =>
    by_cases hdb : db = db_id <;>
      simp [bumpStats_byDb, hdb, statsInv] <;> omega
  | some t =>
    dsimp only
    cases hex : env.duckExec root db_id (if cfg.rewriteFlag then rewrite_for_duckdb t else t) with
    | missingFile =>
      by_cases hdb : db = db_id <;> simp [bumpStats_byDb, hdb, statsInv] <;> omega
    | err =>
      by_cases hdb : db = db_id <;> simp [bumpStats_byDb, hdb, statsInv] <;> omega
    | rows got =>
      dsimp only
      by_cases hok : evalOk cfg expSrc got = true
      · rw [if_pos hok]
        by_cases hrc : cfg.recordCompatible = true
        · rw [if_pos hrc]
          by_cases hdb : db = db_id <;> simp [bumpStats_byDb, hdb, statsInv] <;> omega
        · rw [if_neg hrc]
          by_cases hdb : db = db_id <;> simp [bumpStats_byDb, hdb, statsInv] <;> omega
      · rw [if_neg hok]
        by_cases hdb : db = db_id <;> simp [bumpStats_byDb, hdb, statsInv] <;> omega

lemma evalStep_invAll (cfg : EvalCfg) (env : EvalEnv) (root : String)
    (restrict : Option (Finset QKey)) (st : EvalState) (r : Rec)
    (h : invAll st) : invAll (evalStep cfg env root restrict st r) := by
  have hsqlite : ∀ db_id' : String,
      invAll (bumpStats db_id' (fun s => { s with exec_errors := s.exec_errors + 1 })
        (bumpStats db_id' (fun s => { s with total := s.total + 1 }) st)) := by
    intro db_id' db
    obtain ⟨h1, h2⟩ := h db
    obtain ⟨h1', h2'⟩ := h db_id'
    by_cases hdb : db = db_id' <;> simp [bumpStats_byDb, hdb, statsInv] <;> omega
  rw [evalStep]
  split
  · exact h
  · dsimp only
    split
    · exact h
    · split
      · exact h
      · have hbody :
            invAll (if cfg.compareToGold then
              match env.expected r.qid with
              | Option.none => st
              | some exp =>
                evalFinish cfg env root (recDbId r) (recDbId r, r.qid) (r.cols.getD 3 "")
                  (.inl exp)
                  (bumpStats (recDbId r) (fun s => { s with total := s.total + 1 }) st)
            else
              match env.sqliteExec (recDbId r) (r.cols.getD 3 "") with
              | .missingFile =>
                bumpStats (recDbId r) (fun s => { s with exec_errors := s.exec_errors + 1 })
                  (bumpStats (recDbId r) (fun s => { s with total := s.total + 1 }) st)
              | .err =>
                bumpStats (recDbId r) (fun s => { s with exec_errors := s.exec_errors + 1 })
                  (bumpStats (recDbId r) (fun s => { s with total := s.total + 1 }) st)
              | .rows sqlite_rows =>
                evalFinish cfg env root (recDbId r) (recDbId r, r.qid) (r.cols.getD 3 "")
                  (.inr sqlite_rows)
                  (bumpStats (recDbId r) (fun s => { s with total := s.total + 1 }) st)) := by
          split
          · cases henv : env.expected r.qid with
            | none => exact h
            | some exp => exact evalFinish_invAll cfg env root (recDbId r) _ _ (.inl exp) st h
          · cases hs : env.sqliteExec (recDbId r) (r.cols.getD 3 "") with
            | missingFile => exact hsqlite (recDbId r)
            | err => exact hsqlite (recDbId r)
            | rows sqlite_rows =>
              exact evalFinish_invAll cfg env root (recDbId r) _ _ (.inr sqlite_rows) st h
        cases restrict with
        | none => exact hbody
        | some S =>
          dsimp only
          by_cases hmem : ((recDbId r, r.qid) : QKey) ∈ S
          · rw [if_pos hmem]
            exact hbody
          · rw [if_neg hmem]
            exact h

lemma evaluatePass_invAll (cfg : EvalCfg) (env : EvalEnv) (root : String)
    (restrict : Option (Finset QKey)) (recs : List Rec) :
    invAll (evaluatePass cfg env root restrict recs) := by
  rw [evaluatePass]
  have hinit : invAll initEvalState := fun db => ⟨rfl, le_refl 0⟩
  suffices hfold : ∀ st, invAll st →
      invAll (recs.foldl (evalStep cfg env root restrict) st) from hfold _ hinit
  induction recs with
  | nil => exact fun st h => h
  | cons r rs ih =>
    intro st h
    rw [List.foldl_cons]
    exact ih _ (evalStep_invAll cfg env root restrict st r h)

lemma evalStep_skip_short (cfg : EvalCfg) (env : EvalEnv) (root : String)
    (restrict : Option (Finset QKey)) (st : EvalState) (r : Rec)
    (h : r.cols.length < 4) : evalStep cfg env root restrict st r = st := by
  rw [evalStep, if_pos h]

lemma evalStep_skip_restrict (cfg : EvalCfg) (env : EvalEnv) (root : String)
    (S : Finset QKey) (st : EvalState) (r : Rec)
    (h : recKey r ∉ S) : evalStep cfg env root (some S) st r = st := by
  rw [evalStep]
  split
  · rfl
  · dsimp only
    split
    · rfl
    · split
      · rfl
      · exact if_neg h

lemma evalStep_skip_noexp (cfg : EvalCfg) (env : EvalEnv) (root : String)
    (restrict : Option (Finset QKey)) (st : EvalState) (r : Rec)
    (hg : cfg.compareToGold = true) (he : env.expected r.qid = Option.none) :
    evalStep cfg env root restrict st r = st := by
  rw [evalStep]
  split
  · rfl
  · dsimp only
    split
    · rfl
    · split
      · rfl
      · cases restrict with
        | none =>
          rw [he]
        | some S =>
          dsimp only
          by_cases hmem : ((recDbId r, r.qid) : QKey) ∈ S
          · rw [if_pos hmem, he]
          · rw [if_neg hmem]

lemma evalFinish_compatible (cfg : EvalCfg) (env : EvalEnv) (root db_id : String)
    (key : QKey) (gold_sql : String) (expSrc : PyVal ⊕ List (List PyVal)) (st : EvalState) :
    (evalFinish cfg env root db_id key gold_sql expSrc st).compatible = st.compatible ∨
      ((evalFinish cfg env root db_id key gold_sql expSrc st).compatible =
          insert key st.compatible ∧
        ((evalFinish cfg env root db_id key gold_sql expSrc st).byDb db_id).correct =
          (st.byDb db_id).correct + 1) := by
  rw [evalFinish]
  cases htr : env.transpile gold_sql with
  | none => left; rfl
  | some t =>
    dsimp only
    cases hex : env.duckExec root db_id (if cfg.rewriteFlag then rewrite_for_duckdb t else t) with
    | missingFile => left; rfl
    | err => left; rfl
    | rows got =>
      dsimp only
      by_cases hok : evalOk cfg expSrc got = true
      · rw [if_pos hok]
        by_cases hrc : cfg.recordCompatible = true
        · rw [if_pos hrc]
          right
          constructor
          · rfl
          · simp [bumpStats_byDb]
        · rw [if_neg hrc]
          left
          rfl
      · rw [if_neg hok]
        left
        rfl

lemma evalStep_compatible (cfg : EvalCfg) (env : EvalEnv) (root : String)
    (restrict : Option (Finset QKey)) (st : EvalState) (r : Rec) :
    (evalStep cfg env root restrict st r).compatible = st.compatible ∨
      ((evalStep cfg env root restrict st r).compatible = insert (recKey r) st.compatible ∧
        ((evalStep cfg env root restrict st r).byDb (recDbId r)).correct =
          (st.byDb (recDbId r)).correct + 1) := by
  have hfin : ∀ (expSrc : PyVal ⊕ List (List PyVal)),
      (evalFinish cfg env root (recDbId r) (recDbId r, r.qid) (r.cols.getD 3 "") expSrc
          (bumpStats (recDbId r) (fun s => { s with total := s.total + 1 }) st)).compatible =
        st.compatible ∨
      ((evalFinish cfg env root (recDbId r) (recDbId r, r.qid) (r.cols.getD 3 "") expSrc
          (bumpStats (recDbId r) (fun s => { s with total := s.total + 1 }) st)).compatible =
          insert (recKey r) st.compatible ∧
        ((evalFinish cfg env root (recDbId r) (recDbId r, r.qid) (r.cols.getD 3 "") expSrc
          (bumpStats (recDbId r) (fun s => { s with total := s.total + 1 }) st)).byDb
            (recDbId r)).correct =
          (st.byDb (recDbId r)).correct + 1) := by
    intro expSrc
    rcases evalFinish_compatible cfg env root (recDbId r) (recDbId r, r.qid) (r.cols.getD 3 "")
        expSrc (bumpStats (recDbId r) (fun s => { s with total := s.total + 1 }) st) with
      hleft | ⟨hins, hcor⟩
    · left; exact hleft
    · right
      refine ⟨hins, ?_⟩
      rw [hcor]
      simp [bumpStats_byDb]
  rw [evalStep]
  split
  · left; rfl
  · dsimp only
    split
    · left; rfl
    · split
      · left; rfl
      · have hbody :
            (if cfg.compareToGold then
              match env.expected r.qid with
              | Option.none => st
              | some exp =>
                evalFinish cfg env root (recDbId r) (recDbId r, r.qid) (r.cols.getD 3 "")
                  (.inl exp)
                  (bumpStats (recDbId r) (fun s => { s with total := s.total + 1 }) st)
            else
              match env.sqliteExec (recDbId r) (r.cols.getD 3 "") with
              | .missingFile =>
                bumpStats (recDbId r) (fun s => { s with exec_errors := s.exec_errors + 1 })
                  (bumpStats (recDbId r) (fun s => { s with total := s.total + 1 }) st)
              | .err =>
                bumpStats (recDbId r) (fun s => { s with exec_errors := s.exec_errors + 1 })
                  (bumpStats (recDbId r) (fun s => { s with total := s.total + 1 }) st)
              | .rows sqlite_rows =>
                evalFinish cfg env root (recDbId r) (recDbId r, r.qid) (r.cols.getD 3 "")
                  (.inr sqlite_rows)
                  (bumpStats (recDbId r) (fun s => { s with total := s.total + 1 }) st)).compatible
              = st.compatible ∨
            ((if cfg.compareToGold then
              match env.expected r.qid with
              | Option.none => st
              | some exp =>
                evalFinish cfg env root (recDbId r) (recDbId r, r.qid) (r.cols.getD 3 "")
                  (.inl exp)
                  (bumpStats (recDbId r) (fun s => { s with total := s.total + 1 }) st)
            else
              match env.sqliteExec (recDbId r) (r.cols.getD 3 "") with
              | .missingFile =>
                bumpStats (recDbId r) (fun s => { s with exec_errors := s.exec_errors + 1 })
                  (bumpStats (recDbId r) (fun s => { s with total := s.total + 1 }) st)
              | .err =>
                bumpStats (recDbId r) (fun s => { s with exec_errors := s.exec_errors + 1 })
                  (bumpStats (recDbId r) (fun s => { s with total := s.total + 1 }) st)
              | .rows sqlite_rows =>
                evalFinish cfg env root (recDbId r) (recDbId r, r.qid) (r.cols.getD 3 "")
                  (.inr sqlite_rows)
                  (bumpStats (recDbId r) (fun s => { s with total := s.total + 1 }) st)).compatible
                = insert (recKey r) st.compatible ∧
              ((if cfg.compareToGold then
                match env.expected r.qid with
                | Option.none => st
                | some exp =>
                  evalFinish cfg env root (recDbId r) (recDbId r, r.qid) (r.cols.getD 3 "")
                    (.inl exp)
                    (bumpStats (recDbId r) (fun s => { s with total := s.total + 1 }) st)
              else
                match env.sqliteExec (recDbId r) (r.cols.getD 3 "") with
                | .missingFile =>
                  bumpStats (recDbId r) (fun s => { s with exec_errors := s.exec_errors + 1 })
                    (bumpStats (recDbId r) (fun s => { s with total := s.total + 1 }) st)
                | .err =>
                  bumpStats (recDbId r) (fun s => { s with exec_errors := s.exec_errors + 1 })
                    (bumpStats (recDbId r) (fun s => { s with total := s.total + 1 }) st)
                | .rows sqlite_rows =>
                  evalFinish cfg env root (recDbId r) (recDbId r, r.qid) (r.cols.getD 3 "")
                    (.inr sqlite_rows)
                    (bumpStats (recDbId r) (fun s => { s with total := s.total + 1 }) st)).byDb
                  (recDbId r)).correct = (st.byDb (recDbId r)).correct + 1) := by
          split
          · cases henv : env.expected r.qid with
            | none => left; rfl
            | some exp => exact hfin (.inl exp)
          · cases hs : env.sqliteExec (recDbId r) (r.cols.getD 3 "") with
            | missingFile => left; rfl
            | err => left; rfl
            | rows sqlite_rows => exact hfin (.inr sqlite_rows)
        cases restrict with
        | none => exact hbody
        | some S =>
          dsimp only
          by_cases hmem : ((recDbId r, r.qid) : QKey) ∈ S
          · rw [if_pos hmem]
            exact hbody
          · rw [if_neg hmem]
            left; rfl

lemma evaluatePass_filter (cfg : EvalCfg) (env : EvalEnv) (root : String)
    (S : Finset QKey) (recs : List Rec) :
    evaluatePass cfg env root (some S) recs =
      evaluatePass cfg env root (some S) (recs.filter (fun r => recKey r ∈ S)) := by
  rw [evaluatePass, evaluatePass]
  suffices hfold : ∀ st, recs.foldl (evalStep cfg env root (some S)) st =
      (recs.filter (fun r => recKey r ∈ S)).foldl (evalStep cfg env root (some S)) st from
    hfold _
  induction recs with
  | nil => intro st; rfl
  | cons r rs ih =>
    intro st
    by_cases hmem : recKey r ∈ S
    · rw [List.filter_cons_of_pos (by simpa using hmem), List.foldl_cons, List.foldl_cons, ih]
    · rw [List.filter_cons_of_neg (by simpa using hmem), List.foldl_cons,
        evalStep_skip_restrict cfg env root S st r hmem, ih]

/-- Claim C2: Under a restriction set, a record whose key is outside the set
is skipped before any counter or the CompatibleSet is touched; hence a
restricted pass equals the same pass over only the in-set records; a key
enters the CompatibleSet only at the instant the `correct` counter for its
database is incremented; and phase 2 of the two-phase protocol — restricted
to phase 1's CompatibleSet — therefore evaluates exactly the records whose
key phase 1 counted as correct. -/
theorem C2_second_pass_subset_of_compatible :
    (∀ (cfg : EvalCfg) (env : EvalEnv) (root : String) (S : Finset QKey)
        (st : EvalState) (r : Rec), recKey r ∉ S →
        evalStep cfg env root (some S) st r = st) ∧
    (∀ (cfg : EvalCfg) (env : EvalEnv) (root : String) (S : Finset QKey) (recs : List Rec),
        evaluatePass cfg env root (some S) recs =
          evaluatePass cfg env root (some S) (recs.filter (fun r => recKey r ∈ S))) ∧
    (∀ (cfg : EvalCfg) (env : EvalEnv) (root : String) (restrict : Option (Finset QKey))
        (st : EvalState) (r : Rec),
        (evalStep cfg env root restrict st r).compatible = st.compatible ∨
          ((evalStep cfg env root restrict st r).compatible =
              insert (recKey r) st.compatible ∧
            ((evalStep cfg env root restrict st r).byDb (recDbId r)).correct =
              (st.byDb (recDbId r)).correct + 1)) ∧
    (∀ (cfg : EvalCfg) (env : EvalEnv) (rootB rootD : String) (recs : List Rec),
        (twoPhase cfg env rootB rootD recs).2 =
          evaluatePass { cfg with recordCompatible := false } env rootD
            (some (twoPhase cfg env rootB rootD recs).1.compatible)
            (recs.filter
              (fun r => recKey r ∈ (twoPhase cfg env rootB rootD recs).1.compatible))) := by
  refine ⟨evalStep_skip_restrict, evaluatePass_filter, evalStep_compatible, ?_⟩
  intro cfg env rootB rootD recs
  rw [twoPhase]
  exact evaluatePass_filter _ env rootD _ recs

/-- Claim C2 (witness): The skip clause applied to a concrete record whose
key is outside the restriction set. -/
theorem C2_witness :
    (recKey ⟨["x", "", "", "SELECT 1"], "q9"⟩ ∉ ({("db1", "q1")} : Finset QKey)) ∧
    evalStep ⟨true, false, false, "", false⟩
        ⟨fun _ => Option.none, fun _ => Option.none, fun _ _ => .err, fun _ _ _ => .err⟩
        "root" (some ({("db1", "q1")} : Finset QKey)) initEvalState
        ⟨["x", "", "", "SELECT 1"], "q9"⟩ = initEvalState := by
  refine ⟨by decide, ?_⟩
  exact C2_second_pass_subset_of_compatible.1 _ _ _ _ _ _ (by decide)

/-- Claim C10: Every per-database `EvalStats` record produced by an
evaluation pass satisfies `total = correct + mismatches + exec_errors` and
`transpile_errors ≤ exec_errors` (a transpile failure increments both);
and the skip guards — short rows, missing expected answer in gold mode,
key outside the restriction set — leave the whole state untouched, so
skipped records contribute to no counter. -/
theorem C10_stats_accounting :
    (∀ (cfg : EvalCfg) (env : EvalEnv) (root : String)
        (restrict : Option (Finset QKey)) (recs : List Rec) (db : String),
        statsInv ((evaluatePass cfg env root restrict recs).byDb db)) ∧
    (∀ (cfg : EvalCfg) (env : EvalEnv) (root : String)
        (restrict : Option (Finset QKey)) (st : EvalState) (r : Rec),
        r.cols.length < 4 → evalStep cfg env root restrict st r = st) ∧
    (∀ (cfg : EvalCfg) (env : EvalEnv) (root : String)
        (restrict : Option (Finset QKey)) (st : EvalState) (r : Rec),
        cfg.compareToGold = true → env.expected r.qid = Option.none →
        evalStep cfg env root restrict st r = st) ∧
    (∀ (cfg : EvalCfg) (env : EvalEnv) (root : String) (S : Finset QKey)
        (st : EvalState) (r : Rec), recKey r ∉ S →
        evalStep cfg env root (some S) st r = st) := by
  exact ⟨fun cfg env root restrict recs db => evaluatePass_invAll cfg env root restrict recs db,
    evalStep_skip_short, evalStep_skip_noexp, evalStep_skip_restrict⟩

/-- Claim C10 (witness): The short-row skip clause applied to an empty CSV
row. -/
theorem C10_witness :
    (([] : List String).length < 4) ∧
    evalStep ⟨true, false, false, "", false⟩
        ⟨fun _ => Option.none, fun _ => Option.none, fun _ _ => .err, fun _ _ _ => .err⟩
        "root" Option.none initEvalState ⟨[], "q1"⟩ = initEvalState := by
  refine ⟨by decide, ?_⟩
  exact C10_stats_accounting.2.1 _ _ _ _ _ _ (by decide)

end SWAN
